import Mathlib

/-!
Verification development for the MUN executive-board registration portal
(Express + Firestore + S3 backend).  JavaScript sources are shallowly
embedded: JS strings become `List Char`, JS numbers become `Nat`/`Int`,
field-keyed objects become association lists, and every call to an external
collaborator (object store, document database, SMTP relay) is driven by an
explicit environment argument recording that call's outcome.  External
delete operations are modelled as succeeding (the routes treat cleanup as
best effort and never read back a delete result).
-/

namespace MunEB

/-- JS strings are modelled as lists of characters. -/
abbrev Str := List Char

/-- Model of JS String.prototype.toLowerCase restricted to the ASCII range. -/
def jsToLower (s : Str) : Str := s.map Char.toLower

/-- Model of JS String.prototype.toUpperCase restricted to the ASCII range. -/
def jsToUpper (s : Str) : Str := s.map Char.toUpper

/-- Characters matched by the regex class backslash-s (JS whitespace). -/
def jsWhite (c : Char) : Bool :=
  c = ' ' ∨ c = '\t' ∨ c = '\n' ∨ c = '\r' ∨ c = '\x0b' ∨ c = '\x0c'

/-- Model of the email regex used across the routes:
one-or-more non-space-non-at, an at sign, one-or-more non-space-non-at,
a dot, one-or-more non-space-non-at.  With backtracking this matches
exactly the strings with a single at sign, no whitespace, a nonempty
local part, and a dot strictly inside the part after the at sign. -/
def jsEmailTest (s : Str) : Bool :=
  s.count '@' = 1 ∧ s.all (fun c => ¬ jsWhite c) ∧
    (s.takeWhile (fun c => c ≠ '@')) ≠ [] ∧
    (((s.dropWhile (fun c => c ≠ '@')).drop 1).drop 1).dropLast.contains '.'

/-- Firestore field values that occur in this backend. -/
inductive JsValue where
  | vstr (s : Str)
  | vnum (n : Int)
  | vbool (b : Bool)
  | varr (xs : List Str)
  | vnull
deriving DecidableEq

/-- A document is a field-keyed object, kept as an association list in
JS property-insertion order. -/
abbrev Doc := List (String × JsValue)

/-- Model of JS truthiness for the values of `JsValue` (arrays are
objects and always truthy). -/
def truthy : JsValue → Bool
  | .vstr s => s ≠ []
  | .vnum n => n ≠ 0
  | .vbool b => b
  | .varr _ => true
  | .vnull => false

/-- Model of JS parseInt on a string: optional leading whitespace and sign,
then a nonempty run of decimal digits; anything else is NaN (`none`). -/
def jsParseIntStr (s : Str) : Option Int :=
  let t := s.dropWhile jsWhite
  let core : Str → Option Nat := fun u =>
    let ds := u.takeWhile Char.isDigit
    if ds = [] then none
    else some (ds.foldl (fun a c => a * 10 + (c.toNat - ('0').toNat)) 0)
  match t with
  | '-' :: u => (core u).map (fun n => -(n : Int))
  | '+' :: u => (core u).map (fun n => (n : Int))
  | u => (core u).map (fun n => (n : Int))

/-- Model of JS parseInt applied to a `JsValue` (numbers pass through,
an array coerces to its comma-joined rendering, booleans and null
coerce to NaN). -/
def jsParseInt : JsValue → Option Int
  | .vnum n => some n
  | .vstr s => jsParseIntStr s
  | .varr xs => jsParseIntStr (List.intercalate (",").toList xs)
  | .vbool _ => none
  | .vnull => none

/-! ## Attachment Validator (src/backend/utils/s3Uploader.js) -/

/-- UPLOAD_CONFIG.maxFileSize from s3Uploader.js: per-field size ceilings
in bytes. -/
def maxFileSize : List (String × Nat) :=
  [("idCard", 2 * 1024 * 1024),
   ("munCertificates", 2 * 1024 * 1024),
   ("chairingResume", 3 * 1024 * 1024)]

/-- UPLOAD_CONFIG.allowedMimeTypes from s3Uploader.js. -/
def allowedMimeTypes : List Str := [("application/pdf").toList]

/-- UPLOAD_CONFIG.allowedExtensions from s3Uploader.js. -/
def allowedExtensions : List Str := [(".pdf").toList]

/-- A multer in-memory file as seen by the backend: original client name,
declared MIME type and size in bytes (the buffer contents never influence
control flow and are omitted). -/
structure JsFile where
  originalname : Str
  mimetype : Str
  size : Nat
deriving DecidableEq

/-- Model of Node's path.extname: the substring of the basename from its
last dot, empty when there is no dot or the only dot leads a hidden file.
(Node additionally maps the basename ".." to the empty string; that input
never compares equal to ".pdf" under either reading, so the verdicts of
`validateFile` are unaffected.) -/
def extname (name : Str) : Str :=
  let base := (name.reverse.takeWhile (fun c => c ≠ '/')).reverse
  if base.contains '.' then
    let tlen := (base.reverse.takeWhile (fun c => c ≠ '.')).length
    let j := base.length - tlen - 1
    if 0 < j then base.drop j else []
  else []

/-- Violation message pushed by the size check of s3Helpers.validateFile;
the ceiling is rendered in whole megabytes. -/
def sizeMsg (fieldName : String) (maxSize : Nat) : Str :=
  fieldName.toList ++ (" must be less than ").toList
    ++ (Nat.repr (maxSize / (1024 * 1024))).toList ++ ("MB").toList

/-- Violation message pushed by the MIME-type check of validateFile. -/
def mimeMsg (fieldName : String) : Str :=
  fieldName.toList ++ (" must be a PDF file").toList

/-- Violation message pushed by the extension check of validateFile. -/
def extMsg (fieldName : String) : Str :=
  fieldName.toList ++ (" must have a .pdf extension").toList

/-- Violation message pushed when a required file is absent. -/
def requiredMsg (fieldName : String) : Str :=
  fieldName.toList ++ (" is required").toList

/-- Translation of s3Helpers.validateFile (s3Uploader.js lines 40-68):
collects, without short-circuit, the size, MIME-type and extension
violations of one uploaded file. -/
def validateFile (file : Option JsFile) (fieldName : String) : List Str :=
  match file with
  | none => [requiredMsg fieldName]
  | some f =>
    let sizeErrs :=
      match maxFileSize.lookup fieldName with
      | some maxSize => if maxSize < f.size then [sizeMsg fieldName maxSize] else []
      | none => []
    let mimeErrs :=
      if allowedMimeTypes.contains f.mimetype then [] else [mimeMsg fieldName]
    let extErrs :=
      if allowedExtensions.contains (jsToLower (extname f.originalname)) then []
      else [extMsg fieldName]
    sizeErrs ++ mimeErrs ++ extErrs

/-! ## Admin Query Engine pagination (adminRoutes.js lines 111-126,
matching part_004 lines 96-111) -/

/-- Pagination metadata returned by GET /api/admin/registrations. -/
structure Pagination where
  currentPage : Nat
  totalPages : Nat
  totalRecords : Nat
  hasNext : Bool
  hasPrev : Bool
deriving DecidableEq

/-- Pagination block of the registrations listing: slice of the already
filtered list plus metadata.  Math.ceil(a / b) on naturals is
(a + b - 1) / b; the JS route would divide by zero for limit 0, so the
model is only claimed for positive limits. -/
def paginateRegistrations {α : Type} (registrations : List α) (page limit : Nat) :
    List α × Pagination :=
  let startIndex := (page - 1) * limit
  let endIndex := startIndex + limit
  ((registrations.drop startIndex).take limit,
   { currentPage := page
     totalPages := (registrations.length + limit - 1) / limit
     totalRecords := registrations.length
     hasNext := decide (endIndex < registrations.length)
     hasPrev := decide (0 < startIndex) })

/-! ## CSV export (convertToCSV, adminRoutes.js lines 409-428, matching
part_004 lines 394-413) -/

/-- A cell of the export rows: either a JS string (subject to CSV quoting)
or a non-string value carried with its JS textual rendering, which
convertToCSV emits verbatim because its typeof is not string. -/
inductive CsvCell where
  | strVal (s : Str)
  | rawVal (s : Str)
deriving DecidableEq

/-- An export row: a field-keyed object in property order. -/
abbrev CsvRow := List (String × CsvCell)

/-- Doubling of embedded double quotes, value.replace of a quote with two
quotes globally. -/
def doubleQuotes (s : Str) : Str :=
  (s.map (fun c => if c = '"' then ['"', '"'] else [c])).flatten

/-- Rendering of one cell inside convertToCSV: strings containing a comma
or a double quote are wrapped in double quotes with embedded quotes
doubled, other strings pass through, non-strings render verbatim, and a
missing key renders as the empty string (Array.prototype.join on
undefined). -/
def csvEscape (c : Option CsvCell) : Str :=
  match c with
  | some (.strVal s) =>
    if s.contains ',' ∨ s.contains '"' then '"' :: (doubleQuotes s ++ ['"'])
    else s
  | some (.rawVal s) => s
  | none => []

/-- Translation of convertToCSV: header row from the keys of the first
record, then one comma-joined row per record, all joined by newlines;
the empty export yields the empty string. -/
def convertToCSV (data : List CsvRow) : Str :=
  match data with
  | [] => []
  | first :: _ =>
    let headers := first.map Prod.fst
    let csvHeaders := List.intercalate (",").toList (headers.map String.toList)
    let csvRows := data.map (fun row =>
      List.intercalate (",").toList (headers.map (fun h => csvEscape (row.lookup h))))
    List.intercalate ("\n").toList (csvHeaders :: csvRows)

/-- Restatement of the C10 claim text as a definition: the quoting rule
applied to one string field. -/
def csvQuoteSpec (s : Str) : Str :=
  if s.contains ',' ∨ s.contains '"' then ('"' :: doubleQuotes s) ++ ['"'] else s

/-- Restatement of the C10 claim text as a definition: a header row taken
from the keys of the first exported record followed by one comma-joined
row per record in order, with string fields quoted per `csvQuoteSpec`;
an empty record list yields the empty string. -/
def convertToCSVSpec (data : List CsvRow) : Str :=
  match data with
  | [] => []
  | first :: _ =>
    let headers := first.map Prod.fst
    let headerRow := List.intercalate (",").toList (headers.map String.toList)
    let recordRow : CsvRow → Str := fun row =>
      List.intercalate (",").toList (headers.map (fun h =>
        match row.lookup h with
        | some (.strVal s) => csvQuoteSpec s
        | some (.rawVal s) => s
        | none => []))
    List.intercalate ("\n").toList (headerRow :: data.map recordRow)

/-! ## Document store operations (firebase.js) and the stored data model -/

/-- An uploaded-file descriptor as returned by s3Helpers.uploadFile
(url and uploadedAt are environment-produced echoes of the key and clock
and never influence control flow, so they are omitted). -/
structure UploadDesc where
  key : Str
  originalName : Str
  size : Nat
  mimeType : Str
deriving DecidableEq

/-- A stored registration document: its Firestore fields plus the
files mapping patched in by the submission workflow.  The files mapping
is kept as a separate typed component of the document. -/
structure StoredReg where
  fields : Doc
  files : Option (List (String × UploadDesc))
deriving DecidableEq

/-- The state visible to the backend: the registrations collection
(document id to document, in creation order, ids assigned by a counter)
and the set of object-store keys currently present. -/
structure DbState where
  nextId : Nat
  regs : List (Nat × StoredReg)
  store : List Str
deriving DecidableEq

/-- Model of firestoreHelpers.getDocument on the registrations
collection. -/
def getRegistration (id : Nat) (st : DbState) : Option StoredReg :=
  st.regs.lookup id

/-- Model of firestoreHelpers.deleteDocument on the registrations
collection: Firestore deletes succeed whether or not the document
exists. -/
def deleteRegistration (id : Nat) (st : DbState) : DbState :=
  { st with regs := st.regs.filter (fun p => p.1 ≠ id) }

/-- Assignment of one field of a document, keeping property order:
the first occurrence is overwritten, a fresh key is appended. -/
def setKey (k : String) (v : JsValue) : Doc → Doc
  | [] => [(k, v)]
  | (k', v') :: rest => if k' = k then (k, v) :: rest else (k', v') :: setKey k v rest

/-- Firestore updateDoc merge of a patch into the stored fields, field by
field in patch order. -/
def mergeDoc (d : Doc) (patch : Doc) : Doc :=
  patch.foldl (fun acc p => setKey p.1 p.2 acc) d

/-- Model of firestoreHelpers.updateDocument: merges the patch plus a
server-set updatedAt timestamp into an existing document's fields, and
throws Firestore's NOT_FOUND error (the `error` branch) when the
document does not exist. -/
def updateRegistrationDb (id : Nat) (patch : Doc) (ts : JsValue) (st : DbState) :
    Except Unit DbState :=
  if (st.regs.lookup id).isSome then
    .ok { st with
          regs := st.regs.map (fun p =>
            if p.1 = id then
              (p.1, { p.2 with fields := mergeDoc p.2.fields (setKey "updatedAt" ts patch) })
            else p) }
  else .error ()

/-! ## Admin update route (PUT /registrations/:id, adminRoutes.js lines
165-223, matching part_004 lines 150-208) -/

/-- Keys the route strips from the client patch before merging. -/
def protectedKeys : List String := ["id", "submittedAt", "createdAt"]

/-- The JS delete statements on the client patch: id, submittedAt and
createdAt are removed before any further processing. -/
def sanitizePatch (patch : Doc) : Doc :=
  patch.filter (fun p => ¬ protectedKeys.contains p.1)

/-- Numeric fields re-validated by the update route. -/
def numericUpdateFields : List String :=
  ["munsParticipated", "munsWithAwards", "munsChaired", "year"]

/-- Model of the email regex test as applied to a patch value: only a
string can reach the lower-casing step (a number, boolean or null
coerces to a text without an at sign; an array that matched would make
the route's toLowerCase call throw into the outer catch, which leaves
the stored documents equally untouched). -/
def emailValueOk : JsValue → Bool
  | .vstr s => jsEmailTest s
  | _ => false

/-- Lower-casing of the patched email value. -/
def lowerEmailValue : JsValue → JsValue
  | .vstr s => .vstr (jsToLower s)
  | v => v

/-- The email-validation step of the update route: a truthy email entry
must match the address pattern and is lower-cased in the patch. -/
def updateEmailStep (patch : Doc) : Except Unit Doc :=
  match patch.lookup "email" with
  | some v =>
    if truthy v then
      if emailValueOk v then .ok (setKey "email" (lowerEmailValue v) patch)
      else .error ()
    else .ok patch
  | none => .ok patch

/-- The numeric-validation loop of the update route: each present numeric
field must parse to a non-negative integer and is replaced by the parsed
number. -/
def updateNumericStep : List String → Doc → Except String Doc
  | [], patch => .ok patch
  | f :: rest, patch =>
    match patch.lookup f with
    | some v =>
      (match jsParseInt v with
       | some n => if n < 0 then .error f else updateNumericStep rest (setKey f (.vnum n) patch)
       | none => .error f)
    | none => updateNumericStep rest patch

/-- Outcome of the update route as seen by the caller. -/
structure UpdateResponse where
  status : Nat
  ok : Bool
deriving DecidableEq

/-- Translation of PUT /api/admin/registrations/:id: strips the protected
keys, validates email and numeric fields (400 on violation, state
unchanged), then merges the patch into the stored document (500 via the
outer catch when the document does not exist). -/
def adminUpdateRoute (id : Nat) (patch : Doc) (ts : JsValue) (st : DbState) :
    UpdateResponse × DbState :=
  let p1 := sanitizePatch patch
  match updateEmailStep p1 with
  | .error _ => (⟨400, false⟩, st)
  | .ok p2 =>
    match updateNumericStep numericUpdateFields p2 with
    | .error _ => (⟨400, false⟩, st)
    | .ok p3 =>
      match updateRegistrationDb id p3 ts st with
      | .ok st' => (⟨200, true⟩, st')
      | .error _ => (⟨500, false⟩, st)

/-! ## Mailer (mailerRoutes, first file of part_002): template rendering -/

/-- The double-brace placeholder for a variable name, the literal regex
built by replaceTemplateVariables. -/
def ph (k : Str) : Str := '{' :: '{' :: (k ++ ['}', '}'])

/-- Fuelled scan of one global left-to-right literal replace: at each
position, either the pattern matches and is consumed (the replacement is
emitted and not rescanned), or one character is copied.  Fuel is the
length of the subject, sufficient for any nonempty pattern. -/
def replaceAllF : Nat → Str → Str → Str → Str
  | 0, _, _, s => s
  | _ + 1, _, _, [] => []
  | n + 1, p, r, c :: rest =>
    cond (p.isPrefixOf (c :: rest))
      (r ++ replaceAllF n p r ((c :: rest).drop p.length))
      (c :: replaceAllF n p r rest)

/-- One global literal replace, the model of JS String.prototype.replace
with a global literal regex. -/
def replaceAll (p r s : Str) : Str := replaceAllF s.length p r s

/-- Translation of replaceTemplateVariables (mailer routes lines 110-117):
Object.entries iterates the variable map in declaration order, and each
variable performs one global replace of its double-brace placeholder with
its value, an undefined value falling back to the empty string. -/
def replaceTemplateVariables (template : Str) (vars : List (Str × Option Str)) : Str :=
  vars.foldl (fun result kv => replaceAll (ph kv.1) (kv.2.getD []) result) template

/-- Templates whose placeholder structure is explicit: a leading literal
segment followed by placeholder/segment pairs.  `interleave s0 ps` is the
template text s0 ++ ph k1 ++ s1 ++ ... ++ ph kn ++ sn. -/
def interleave (s0 : Str) : List (Str × Str) → Str
  | [] => s0
  | (k, s) :: rest => s0 ++ ph k ++ interleave s rest

/-- Effect of one variable's pass on an explicit template: every slot
named k is replaced by the value v, merging its neighbouring segments;
other slots are kept. -/
def substK (k v : Str) (s0 : Str) : List (Str × Str) → Str × List (Str × Str)
  | [] => (s0, [])
  | (k', s) :: rest =>
    let t := substK k v s rest
    if k' = k then (s0 ++ v ++ t.1, t.2) else (s0, (k', t.1) :: t.2)

/-- Value substituted for a slot named k under a variable map: the first
binding's value (empty for an undefined value), or the placeholder itself
verbatim when no variable carries that name. -/
def lookupSub (vars : List (Str × Option Str)) (k : Str) : Str :=
  match vars with
  | [] => ph k
  | (k', v) :: rest => if k' = k then v.getD [] else lookupSub rest k

/-- Simultaneous (non-interacting) substitution of a variable map into an
explicit template: each slot is independently replaced by its variable's
value, literal segments pass through untouched. -/
def flatSub (vars : List (Str × Option Str)) (s0 : Str) (ps : List (Str × Str)) : Str :=
  s0 ++ (ps.map (fun p => lookupSub vars p.1 ++ p.2)).flatten

/-- A string free of brace characters, the benign case for placeholder
substitution. -/
def braceFree (s : Str) : Prop := ∀ c ∈ s, c ≠ '{' ∧ c ≠ '}'

instance braceFreeDecidable (s : Str) : Decidable (braceFree s) :=
  List.decidableBAll _ s

/-! ## Mailer (mailerRoutes, first file of part_002): recipients and
dispatch (POST /api/admin/send-mail, lines 120-288) -/

/-- A registration as the mailer reads it back from the collection.
Committees and positions are stored as arrays by the submission
workflow's write path (section 3 of the data model), so the route's
Array.isArray guard holds. -/
structure Registration where
  email : Str
  name : Str
  committees : List Str
  positions : List Str
  submittedAt : Str
deriving DecidableEq

/-- Recipient resolution of the send-mail route (lines 157-201): the
sentinel "all" expands to every registration's email; otherwise a single
token containing an at sign is a literal address; otherwise every token
is upper-cased and treated as a committee code, expanding to the emails
of the registrations whose committees contain it. -/
def resolveRecipients (recipientsArray : List Str) (regs : List Registration) : List Str :=
  if recipientsArray.contains ("all").toList then regs.map (·.email)
  else
    if recipientsArray.length = 1 ∧ (recipientsArray.headD []).contains '@' then
      recipientsArray
    else
      recipientsArray.flatMap (fun committee =>
        (regs.filter (fun r => r.committees.contains (jsToUpper committee))).map (·.email))

/-- SMTP configurations declared in the mailer routes; createTransport
throws for any other provider key. -/
def smtpProviders : List String := ["gmail", "outlook"]

/-- Environment for one send-mail request: the outcome of
transporter.verify, and per address the outcome of the whole personalize
and transporter.sendMail try-block (`none` is success, `some m` is a
failure with message m). -/
structure MailEnv where
  verifyOk : Bool
  sendErr : Str → Option Str

/-- The results tally accumulated by the send loop. -/
structure MailResults where
  sent : Nat
  failed : Nat
  errors : List Str
deriving DecidableEq

/-- Response of the send-mail route. -/
structure MailResponse where
  status : Nat
  ok : Bool
  results : Option MailResults
deriving DecidableEq

/-- The sequential send loop (lines 227-273): one send attempt per
resolved address in order, failures recorded in the tally and never
stopping the loop.  Returns the tally together with the list of addresses
actually attempted, the model's record of dispatched sends. -/
def sendLoop (env : MailEnv) : List Str → MailResults × List Str
  | [] => (⟨0, 0, []⟩, [])
  | email :: rest =>
    let r := sendLoop env rest
    match env.sendErr email with
    | none => (⟨r.1.sent + 1, r.1.failed, r.1.errors⟩, email :: r.2)
    | some m =>
      (⟨r.1.sent, r.1.failed + 1, (email ++ (": ").toList ++ m) :: r.1.errors⟩, email :: r.2)

/-- Translation of POST /api/admin/send-mail: request validation,
recipient resolution, transporter creation and verification (a verify
failure returns a single 500 configuration error with no send attempt),
then the sequential send loop and a 200 response carrying the tally even
when sends failed. -/
def sendMailRoute (env : MailEnv) (recipients : List Str) (subject message : Str)
    (provider : String) (regs : List Registration) : MailResponse × List Str :=
  if recipients = [] then (⟨400, false, none⟩, [])
  else if subject = [] ∨ message = [] then (⟨400, false, none⟩, [])
  else
    let recipientEmails := resolveRecipients recipients regs
    if recipientEmails = [] then (⟨400, false, none⟩, [])
    else if ¬ smtpProviders.contains provider then (⟨500, false, none⟩, [])
    else if ¬ env.verifyOk then (⟨500, false, none⟩, [])
    else
      let r := sendLoop env recipientEmails
      (⟨200, true, some r.1⟩, r.2)

/-! ## Submission workflow (part_003 lines 129-149 together with
registrationUploads.uploadRegistrationFiles, s3Uploader.js lines
215-268) -/

/-- Environment for one submission's object-store calls: the outcome of
s3Helpers.uploadFile per form field (each field is uploaded at most
once); an `error` carries the thrown message, an `ok` carries the
produced descriptor whose generated key subsumes the timestamp, random
token and folder prefix. -/
def UploadEnv := String → JsFile → Except Str UploadDesc

/-- Error message pushed when an upload call for a field throws. -/
def uploadFailMsg (fieldName : String) (m : Str) : Str :=
  ("Failed to upload ").toList ++ fieldName.toList ++ (": ").toList ++ m

/-- The per-field loop of uploadRegistrationFiles: fields in object
order; an empty file list is skipped for optional fields and a violation
for idCard; a present file is validated (violations collected, field
skipped) and otherwise uploaded, a throwing upload collected as a
failure.  Returns the successfully uploaded descriptors (whose keys are
exactly the objects put into the store, in order) and the collected
violation messages. -/
def uploadLoop (env : UploadEnv) :
    List (String × List JsFile) → List (String × UploadDesc) × List Str
  | [] => ([], [])
  | (fieldName, fileArray) :: rest =>
    let r := uploadLoop env rest
    match fileArray with
    | [] =>
      if fieldName = "idCard" then (r.1, requiredMsg fieldName :: r.2) else r
    | file :: _ =>
      let vErrs := validateFile (some file) fieldName
      if vErrs ≠ [] then (r.1, vErrs ++ r.2)
      else
        match env fieldName file with
        | .ok d => ((fieldName, d) :: r.1, r.2)
        | .error m => (r.1, uploadFailMsg fieldName m :: r.2)

/-- The error message thrown by uploadRegistrationFiles: all collected
violations joined with a comma. -/
def joinErrors (errors : List Str) : Str :=
  List.intercalate (", ").toList errors

/-- Translation of registrationUploads.uploadRegistrationFiles: runs the
per-field loop (each successful put appends its key to the store), and
when any violation was collected deletes every object that did complete
and throws the joined message.  The best-effort cleanup deletes are
modelled as succeeding. -/
def uploadRegistrationFiles (env : UploadEnv) (files : List (String × List JsFile))
    (st : DbState) : Except Str (List (String × UploadDesc)) × DbState :=
  let r := uploadLoop env files
  let keys := r.1.map (fun p => p.2.key)
  let stUp := { st with store := st.store ++ keys }
  if r.2 ≠ [] then
    (.error (joinErrors r.2), { stUp with store := stUp.store.filter (fun k => ¬ keys.contains k) })
  else (.ok r.1, stUp)

/-- Model of registrationHelpers.createRegistration: adds a document with
the validated fields, a server-set submittedAt and status submitted, and
returns the database-assigned identifier. -/
def createRegistration (data : Doc) (serverTs : Str) (st : DbState) : Nat × DbState :=
  (st.nextId,
   { st with
     nextId := st.nextId + 1
     regs := st.regs ++
       [(st.nextId,
         { fields := setKey "status" (.vstr ("submitted").toList)
             (setKey "submittedAt" (.vstr serverTs) data)
           files := none })] })

/-- Patch of the created record with the uploaded-file metadata,
registrationHelpers.updateRegistration with the files object. -/
def attachFiles (id : Nat) (uploaded : List (String × UploadDesc)) (st : DbState) : DbState :=
  { st with
    regs := st.regs.map (fun p => if p.1 = id then (p.1, { p.2 with files := some uploaded }) else p) }

/-- Response of the submission workflow. -/
structure SubmitResponse where
  status : Nat
  ok : Bool
  message : Str
  registrationId : Option Nat
deriving DecidableEq

/-- Translation of the post-validation part of POST /submit (part_003
lines 129-149): create the stub record to obtain an identifier, upload
the attachments, and on any upload error delete the stub record and
return 400 with the thrown message; on success patch the record with the
file metadata and return 201. -/
def submitWorkflow (env : UploadEnv) (data : Doc) (files : List (String × List JsFile))
    (serverTs : Str) (st : DbState) : SubmitResponse × DbState :=
  let c := createRegistration data serverTs st
  match uploadRegistrationFiles env files c.2 with
  | (.error m, st2) =>
    (⟨400, false, m, none⟩, deleteRegistration c.1 st2)
  | (.ok uploaded, st2) =>
    (⟨201, true, ("Application submitted successfully").toList, some c.1⟩,
     attachFiles c.1 uploaded st2)

/-! ## Form submission route (formRoutes.js lines 31-185).  This is the
upload-first path mounted at POST /api/submit: required-field and
checkbox validation, three uploads with failures of the optional fields
swallowed by their catch handlers, then a single record creation. -/

/-- Result of JSON.parse on a checkbox body field, carrying the raw
body string so the catch branch can fall back to wrapping it. -/
inductive JsonLike where
  | jarr (raw : Str) (xs : List Str)
  | jnonarray (raw : Str)
  | jbad (raw : Str)
deriving DecidableEq

/-- The multipart body of the form route.  Scalar fields are strings
(an absent field and an empty string are both falsy and behave
identically in this handler); checkbox fields carry their parse
behaviour. -/
structure FormBody where
  name : Str
  email : Str
  phone : Str
  college : Str
  department : Str
  year : Str
  munsParticipated : Str
  munsWithAwards : Str
  munsChaired : Str
  organizingExperience : Str
  committees : Option JsonLike
  positions : Option JsonLike
deriving DecidableEq

/-- The files accepted by the route's multer fields, one file at most
per field. -/
structure FormFiles where
  idCard : Option JsFile
  munCertificates : Option JsFile
  chairingResume : Option JsFile
deriving DecidableEq

/-- The catch branch of the checkbox parsing: the raw body string is
wrapped in a singleton array when truthy. -/
def wrapRaw : Option JsonLike → List Str
  | none => []
  | some (.jarr raw _) | some (.jnonarray raw) | some (.jbad raw) =>
    if raw = [] then [] else [raw]

/-- Whether JSON.parse threw on a present truthy checkbox field. -/
def parseThrew : Option JsonLike → Bool
  | some (.jbad raw) => raw ≠ []
  | _ => false

/-- The checkbox-decoding block of the form route: both fields are parsed
inside one try, so a throw on either resets both to their wrapped raw
strings; a falsy field is never parsed and stays the empty array; a
parse to a non-array survives to the Array.isArray check and is reported
as `none` here. -/
def decodeCheckbox (threw : Bool) (f : Option JsonLike) : Option (List Str) :=
  if threw then some (wrapRaw f)
  else
    match f with
    | none => some []
    | some (.jarr raw xs) => if raw = [] then some [] else some xs
    | some (.jnonarray raw) => if raw = [] then some [] else none
    | some (.jbad raw) => if raw = [] then some [] else none

/-- Spec-modelled object-store upload used by the form route.
Modelled from the spec: formRoutes.js imports uploadToS3 from the
uploader module, but the module in src does not define or export it;
section 4.2 of the spec describes the operation as storing the buffer
under the generated key and returning a resolvable URL, or failing with
a wrapped transport error.  The outcome per form field is supplied by
the environment. -/
def FormUploadEnv := String → Option Str

/-- Response of the form route. -/
structure FormResponse where
  status : Nat
  ok : Bool
  message : Str
  registrationId : Option Nat
deriving DecidableEq

/-- Translation of POST / in formRoutes.js: required scalars, required
idCard, checkbox decoding, then the three uploads (the idCard catch
rethrows and fails the submission with 500; the optional catches only
log, leaving the URL unset), then one record creation carrying the
collected URLs with absent optional attachments stored as null. -/
def formSubmitRoute (env : FormUploadEnv) (body : FormBody) (files : FormFiles)
    (serverTs : Str) (st : DbState) : FormResponse × DbState :=
  if body.name = [] then (⟨400, false, ("Missing required field: name").toList, none⟩, st)
  else if body.email = [] then (⟨400, false, ("Missing required field: email").toList, none⟩, st)
  else if body.phone = [] then (⟨400, false, ("Missing required field: phone").toList, none⟩, st)
  else if body.college = [] then (⟨400, false, ("Missing required field: college").toList, none⟩, st)
  else if body.department = [] then (⟨400, false, ("Missing required field: department").toList, none⟩, st)
  else if body.year = [] then (⟨400, false, ("Missing required field: year").toList, none⟩, st)
  else if files.idCard = none then (⟨400, false, ("ID Card is required").toList, none⟩, st)
  else
    let threw := parseThrew body.committees ∨ parseThrew body.positions
    match decodeCheckbox threw body.committees with
    | none =>
      (⟨400, false, ("Please select at least one committee preference").toList, none⟩, st)
    | some committees =>
      if committees = [] then
        (⟨400, false, ("Please select at least one committee preference").toList, none⟩, st)
      else
      match decodeCheckbox threw body.positions with
      | none =>
        (⟨400, false, ("Please select at least one position preference").toList, none⟩, st)
      | some positions =>
      if positions = [] then
        (⟨400, false, ("Please select at least one position preference").toList, none⟩, st)
      else
        match env "idCard" with
        | none => (⟨500, false, ("Failed to upload ID card").toList, none⟩, st)
        | some idCardUrl =>
          let certUrl := match files.munCertificates with
            | some _ => env "munCertificates"
            | none => none
          let resumeUrl := match files.chairingResume with
            | some _ => env "chairingResume"
            | none => none
          let formData : Doc :=
            [("name", .vstr body.name), ("email", .vstr body.email),
             ("phone", .vstr body.phone), ("college", .vstr body.college),
             ("department", .vstr body.department), ("year", .vstr body.year),
             ("munsParticipated", .vnum ((jsParseIntStr body.munsParticipated).getD 0)),
             ("munsWithAwards", .vnum ((jsParseIntStr body.munsWithAwards).getD 0)),
             ("organizingExperience", .vstr body.organizingExperience),
             ("munsChaired", .vnum ((jsParseIntStr body.munsChaired).getD 0)),
             ("committees", .varr committees),
             ("positions", .varr positions),
             ("idCardUrl", .vstr idCardUrl),
             ("munCertificatesUrl", (certUrl.map JsValue.vstr).getD .vnull),
             ("chairingResumeUrl", (resumeUrl.map JsValue.vstr).getD .vnull),
             ("submittedAt", .vstr serverTs)]
          (⟨200, true, ("Application submitted successfully!").toList, some st.nextId⟩,
           { st with
             nextId := st.nextId + 1
             regs := st.regs ++ [(st.nextId, { fields := formData, files := none })] })

/-! ## Bulk actions (POST /registrations/bulk-action, part_004 lines
253-325, matching adminRoutes.js lines 268-340) -/

/-- Model of registrationUploads.deleteRegistrationFiles: removes every
stored object whose key appears in the files mapping (every descriptor
in the model carries a key, so the route's key filter keeps all of
them). -/
def deleteRegistrationFilesDb (files : List (String × UploadDesc)) (st : DbState) : DbState :=
  { st with store := st.store.filter (fun k => ¬ (files.map (fun p => p.2.key)).contains k) }

/-- Not-found error string pushed by the bulk loop. -/
def bulkNotFoundMsg (id : Nat) : Str :=
  ("Registration ").toList ++ (Nat.repr id).toList ++ (" not found").toList

/-- Per-id error string pushed by the bulk loop's catch handler; the
vendor error text for an update of a missing document is abstracted to
its Firestore error code. -/
def bulkCaughtMsg (id : Nat) : Str :=
  ("Error processing ").toList ++ (Nat.repr id).toList ++ (": NOT_FOUND").toList

/-- Error string pushed for an update action without a data payload. -/
def bulkNoDataMsg (id : Nat) : Str :=
  ("No update data provided for ").toList ++ (Nat.repr id).toList

/-- Error string pushed for an unknown action. -/
def bulkUnknownMsg (action : String) : Str :=
  ("Unknown action: ").toList ++ action.toList

/-- The results tally of a bulk action. -/
structure BulkResults where
  success : Nat
  failed : Nat
  errors : List Str
deriving DecidableEq

/-- Processing of one identifier inside the bulk loop's try/catch:
delete releases the document's stored objects and then the document;
update merges the payload, a missing document's thrown NOT_FOUND being
caught as a failure; an unknown action fails.  Returns the success flag,
the error strings pushed (none or one) and the new state. -/
def bulkStep (action : String) (data : Option Doc) (ts : JsValue) (id : Nat)
    (st : DbState) : Bool × List Str × DbState :=
  match action with
  | "delete" =>
    (match getRegistration id st with
     | some reg =>
       let st1 := match reg.files with
         | some fs => deleteRegistrationFilesDb fs st
         | none => st
       (true, [], deleteRegistration id st1)
     | none => (false, [bulkNotFoundMsg id], st))
  | "update" =>
    (match data with
     | none => (false, [bulkNoDataMsg id], st)
     | some patch =>
       match updateRegistrationDb id patch ts st with
       | .ok st1 => (true, [], st1)
       | .error _ => (false, [bulkCaughtMsg id], st))
  | _ => (false, [bulkUnknownMsg action], st)

/-- The per-identifier loop of the bulk-action route: every identifier is
processed in order inside its own try/catch, so one identifier's failure
only contributes to the tally and never stops the loop. -/
def bulkLoop (action : String) (data : Option Doc) (ts : JsValue) :
    List Nat → DbState → BulkResults × DbState
  | [], st => (⟨0, 0, []⟩, st)
  | id :: rest, st =>
    let s := bulkStep action data ts id st
    let r := bulkLoop action data ts rest s.2.2
    (⟨r.1.success + (if s.1 then 1 else 0), r.1.failed + (if s.1 then 0 else 1),
      s.2.1 ++ r.1.errors⟩, r.2)

/-- Response of the bulk-action route. -/
structure BulkResponse where
  status : Nat
  ok : Bool
  results : Option BulkResults
deriving DecidableEq

/-- Translation of POST /api/admin/registrations/bulk-action: request
validation, then the per-identifier loop, then a 200 response carrying
the tally regardless of how many identifiers failed. -/
def bulkActionRoute (action : String) (ids : Option (List Nat)) (data : Option Doc)
    (ts : JsValue) (st : DbState) : BulkResponse × DbState :=
  match ids with
  | none => (⟨400, false, none⟩, st)
  | some idList =>
    let r := bulkLoop action data ts idList st
    (⟨200, true, some r.1⟩, r.2)

/-! ## Helper lemmas -/

/-- Two appended lists differ whenever their left parts differ within a
common prefix length. -/
theorem ne_of_take_ne {a b : Str} (x y : Str) (n : Nat) (ha : n ≤ a.length)
    (hb : n ≤ b.length) (hne : a.take n ≠ b.take n) : a ++ x ≠ b ++ y := by
  intro h
  apply hne
  have h2 := congrArg (List.take n) h
  rwa [List.take_append_of_le_length ha, List.take_append_of_le_length hb] at h2

/-- The size message never coincides with the MIME message. -/
theorem sizeMsg_ne_mimeMsg (fn : String) (m : Nat) : sizeMsg fn m ≠ mimeMsg fn := by
  unfold sizeMsg mimeMsg
  intro h
  rw [List.append_assoc, List.append_assoc] at h
  have h2 := List.append_cancel_left h
  rw [show (" must be a PDF file").toList = (" must be a PDF file").toList ++ ([] : Str) by simp] at h2
  exact ne_of_take_ne _ _ 10 (by decide) (by decide) (by decide) h2

/-- The size message never coincides with the extension message. -/
theorem sizeMsg_ne_extMsg (fn : String) (m : Nat) : sizeMsg fn m ≠ extMsg fn := by
  unfold sizeMsg extMsg
  intro h
  rw [List.append_assoc, List.append_assoc] at h
  have h2 := List.append_cancel_left h
  rw [show (" must have a .pdf extension").toList = (" must have a .pdf extension").toList ++ ([] : Str) by simp] at h2
  exact ne_of_take_ne _ _ 7 (by decide) (by decide) (by decide) h2

/-- The MIME message never coincides with the extension message. -/
theorem mimeMsg_ne_extMsg (fn : String) : mimeMsg fn ≠ extMsg fn := by
  unfold mimeMsg extMsg
  intro h
  exact absurd (List.append_cancel_left h) (by decide)

/-- The validator's output written as the concatenation of its three
independent checks. -/
theorem validateFile_eq (f : JsFile) (fn : String) :
    validateFile (some f) fn =
      (match maxFileSize.lookup fn with
       | some maxSize => if maxSize < f.size then [sizeMsg fn maxSize] else []
       | none => []) ++
      ((if f.mimetype = ("application/pdf").toList then [] else [mimeMsg fn]) ++
       (if jsToLower (extname f.originalname) = (".pdf").toList then [] else [extMsg fn])) := by
  simp only [validateFile, allowedMimeTypes, allowedExtensions,
    List.contains_cons, List.contains_nil, Bool.or_false, beq_iff_eq]
  rcases maxFileSize.lookup fn with _ | m <;>
    by_cases h1 : f.mimetype = ("application/pdf").toList <;>
    by_cases h2 : jsToLower (extname f.originalname) = (".pdf").toList <;>
    simp [h1, h2]

/-- C3: for every uploaded file descriptor and field name, the attachment
validator reports all violated rules together with no short-circuit: a
size strictly above the field's ceiling yields the message naming the
human-readable ceiling, a MIME type other than application/pdf yields the
MIME violation regardless of extension, a case-insensitive extension
other than ".pdf" yields the extension violation independent of the MIME
type, and the empty list is returned exactly when no rule is violated. -/
theorem c3_validator_reports_all_violations (f : JsFile) (fn : String) :
    (∀ m, maxFileSize.lookup fn = some m →
      (sizeMsg fn m ∈ validateFile (some f) fn ↔ m < f.size)) ∧
    (mimeMsg fn ∈ validateFile (some f) fn ↔ f.mimetype ≠ ("application/pdf").toList) ∧
    (extMsg fn ∈ validateFile (some f) fn ↔
      jsToLower (extname f.originalname) ≠ (".pdf").toList) ∧
    (validateFile (some f) fn = [] ↔
      (∀ m, maxFileSize.lookup fn = some m → f.size ≤ m) ∧
      f.mimetype = ("application/pdf").toList ∧
      jsToLower (extname f.originalname) = (".pdf").toList) := by
  have hmime : ∀ m, sizeMsg fn m ≠ mimeMsg fn := fun m => sizeMsg_ne_mimeMsg fn m
  have hext : ∀ m, sizeMsg fn m ≠ extMsg fn := fun m => sizeMsg_ne_extMsg fn m
  have hme : mimeMsg fn ≠ extMsg fn := mimeMsg_ne_extMsg fn
  have hms : ∀ m, mimeMsg fn ≠ sizeMsg fn m := fun m h => hmime m h.symm
  have hes : ∀ m, extMsg fn ≠ sizeMsg fn m := fun m h => hext m h.symm
  have hem : extMsg fn ≠ mimeMsg fn := fun h => hme h.symm
  refine ⟨?_, ?_, ?_, ?_⟩
  · intro m hm
    rw [validateFile_eq, hm]
    by_cases hs : m < f.size <;>
      by_cases h1 : f.mimetype = ("application/pdf").toList <;>
      by_cases h2 : jsToLower (extname f.originalname) = (".pdf").toList <;>
      simp [hs, h1, h2, hmime m, hext m]
  · rw [validateFile_eq]
    rcases maxFileSize.lookup fn with _ | m
    · by_cases h1 : f.mimetype = ("application/pdf").toList <;>
        by_cases h2 : jsToLower (extname f.originalname) = (".pdf").toList <;>
        simp [h1, h2, hme]
    · by_cases hsz : m < f.size <;>
        by_cases h1 : f.mimetype = ("application/pdf").toList <;>
        by_cases h2 : jsToLower (extname f.originalname) = (".pdf").toList <;>
        simp [hsz, h1, h2, hme, hms m]
  · rw [validateFile_eq]
    rcases maxFileSize.lookup fn with _ | m
    · by_cases h1 : f.mimetype = ("application/pdf").toList <;>
        by_cases h2 : jsToLower (extname f.originalname) = (".pdf").toList <;>
        simp [h1, h2, hem]
    · by_cases hsz : m < f.size <;>
        by_cases h1 : f.mimetype = ("application/pdf").toList <;>
        by_cases h2 : jsToLower (extname f.originalname) = (".pdf").toList <;>
        simp [hsz, h1, h2, hem, hes m]
  · rw [validateFile_eq]
    rcases maxFileSize.lookup fn with _ | m
    · by_cases h1 : f.mimetype = ("application/pdf").toList <;>
        by_cases h2 : jsToLower (extname f.originalname) = (".pdf").toList <;>
        simp [h1, h2]
    · by_cases hsz : m < f.size <;>
        by_cases h1 : f.mimetype = ("application/pdf").toList <;>
        by_cases h2 : jsToLower (extname f.originalname) = (".pdf").toList <;>
        simp [hsz, h1, h2] <;> omega

/-- Witness for C3: a 3.5 MiB chairing resume with a wrong MIME type but
a correct extension violates the size rule (citing the 3MB ceiling) and
the MIME rule but not the extension rule. -/
theorem c3_validator_witness :
    maxFileSize.lookup "chairingResume" = some (3 * 1024 * 1024) ∧
    sizeMsg "chairingResume" (3 * 1024 * 1024) ∈
      validateFile (some ⟨("r.pdf").toList, ("image/png").toList, 3670016⟩) "chairingResume" ∧
    mimeMsg "chairingResume" ∈
      validateFile (some ⟨("r.pdf").toList, ("image/png").toList, 3670016⟩) "chairingResume" ∧
    extMsg "chairingResume" ∉
      validateFile (some ⟨("r.pdf").toList, ("image/png").toList, 3670016⟩) "chairingResume" := by
  have h := c3_validator_reports_all_violations
    ⟨("r.pdf").toList, ("image/png").toList, 3670016⟩ "chairingResume"
  refine ⟨by decide, (h.1 (3 * 1024 * 1024) (by decide)).mpr (by decide),
    h.2.1.mpr (by decide), fun hx => ?_⟩
  exact absurd (h.2.2.1.mp hx) (by decide)

/-- C4: the admin listing slice and metadata for page at least 1 and a
positive limit: the slice starts at (page-1)*limit and has length at most
limit (elementwise it is the corresponding window of the filtered list),
totalRecords is the filtered count, totalPages is the ceiling of
count/limit, hasNext holds exactly when page*limit is below the count,
and hasPrev exactly when page exceeds 1. -/
theorem c4_pagination_correct {α : Type} (regs : List α) (page limit : Nat)
    (hp : 1 ≤ page) (hl : 0 < limit) :
    (paginateRegistrations regs page limit).1.length =
      min limit (regs.length - (page - 1) * limit) ∧
    (∀ i, i < limit →
      (paginateRegistrations regs page limit).1[i]? = regs[(page - 1) * limit + i]?) ∧
    (paginateRegistrations regs page limit).2.currentPage = page ∧
    (paginateRegistrations regs page limit).2.totalRecords = regs.length ∧
    regs.length ≤ (paginateRegistrations regs page limit).2.totalPages * limit ∧
    (paginateRegistrations regs page limit).2.totalPages * limit < regs.length + limit ∧
    ((paginateRegistrations regs page limit).2.hasNext = true ↔ page * limit < regs.length) ∧
    ((paginateRegistrations regs page limit).2.hasPrev = true ↔ 1 < page) := by
  have hq := Nat.div_add_mod (regs.length + limit - 1) limit
  have hr := Nat.mod_lt (regs.length + limit - 1) hl
  refine ⟨?_, ?_, rfl, rfl, ?_, ?_, ?_, ?_⟩
  · simp [paginateRegistrations, List.length_take, List.length_drop]
  · intro i hi
    simp only [paginateRegistrations]
    rw [List.getElem?_take_of_lt hi, List.getElem?_drop]
  · rw [Nat.mul_comm] at hq
    simp only [paginateRegistrations]
    omega
  · rw [Nat.mul_comm] at hq
    simp only [paginateRegistrations]
    omega
  · obtain ⟨p, rfl⟩ := Nat.exists_eq_add_of_le hp
    simp only [paginateRegistrations, decide_eq_true_eq]
    have he : (1 + p - 1) * limit + limit = (1 + p) * limit := by
      rw [Nat.add_sub_cancel_left]
      ring
    rw [he]
  · obtain ⟨p, rfl⟩ := Nat.exists_eq_add_of_le hp
    simp only [paginateRegistrations, decide_eq_true_eq, Nat.add_sub_cancel_left]
    constructor
    · intro h
      rcases Nat.eq_zero_or_pos p with h0 | h0
      · rw [h0] at h
        simp at h
      · omega
    · intro h
      exact Nat.mul_pos (by omega) hl

/-- Witness for C4: with 101 filtered records and limit 50, page 3
returns exactly 1 record, hasNext is false and hasPrev is true. -/
theorem c4_pagination_witness :
    ((paginateRegistrations (List.range 101) 3 50).1.length =
        min 50 ((List.range 101).length - (3 - 1) * 50) ∧
      (paginateRegistrations (List.range 101) 3 50).2.hasNext = false ∧
      (paginateRegistrations (List.range 101) 3 50).2.hasPrev = true) ∧
    (paginateRegistrations (List.range 101) 3 50).1.length = 1 := by
  have h := c4_pagination_correct (List.range 101) 3 50 (by decide) (by decide)
  refine ⟨⟨h.1, ?_, h.2.2.2.2.2.2.2.mpr (by decide)⟩, by decide⟩
  have h7 := h.2.2.2.2.2.2.1
  by_cases hb : (paginateRegistrations (List.range 101) 3 50).2.hasNext = true
  · exact absurd (h7.mp hb) (by decide)
  · simpa using hb

/-- The escaping branch of convertToCSV agrees with the quoting rule of
the claim on every cell. -/
theorem csvEscape_cases (c : Option CsvCell) :
    csvEscape c = (match c with
      | some (.strVal s) => csvQuoteSpec s
      | some (.rawVal s) => s
      | none => []) := by
  rcases c with _ | c
  · rfl
  · rcases c with s | s <;> simp [csvEscape, csvQuoteSpec]

/-- C10: the CSV export consists of a header row taken from the keys of
the first exported record followed by one comma-joined row per record in
order, string fields containing a comma or a double quote being wrapped
in double quotes with embedded double quotes doubled, and an empty
record list yields the empty string. -/
theorem c10_csv_export_shape (data : List CsvRow) :
    convertToCSV data = convertToCSVSpec data ∧ convertToCSV ([] : List CsvRow) = [] := by
  refine ⟨?_, rfl⟩
  rcases data with _ | ⟨first, rest⟩
  · rfl
  · simp only [convertToCSV, convertToCSVSpec, csvEscape_cases]

/-- Field assignment leaves the lookup of every other key unchanged. -/
theorem lookup_setKey_ne (k k' : String) (v : JsValue) (d : Doc) (h : k ≠ k') :
    (setKey k' v d).lookup k = d.lookup k := by
  have hb : (k == k') = false := by simp [h]
  induction d with
  | nil => simp [setKey, List.lookup, hb]
  | cons p rest ih =>
    rcases p with ⟨k1, v1⟩
    by_cases hp : k1 = k'
    · simp only [setKey, if_pos hp]
      simp [List.lookup, hb, hp]
    · simp only [setKey, if_neg hp]
      by_cases hk1 : k = k1 <;> simp [List.lookup, beq_iff_eq, hk1, ih]

/-- Merging a patch whose keys avoid k leaves the lookup of k
unchanged. -/
theorem lookup_mergeDoc_notin (patch : Doc) (k : String) :
    ∀ d : Doc, (∀ p ∈ patch, p.1 ≠ k) → (mergeDoc d patch).lookup k = d.lookup k := by
  induction patch with
  | nil => intro d _; rfl
  | cons q rest ih =>
    intro d hp
    have h1 : (mergeDoc d (q :: rest)) = mergeDoc (setKey q.1 q.2 d) rest := rfl
    rw [h1, ih _ (fun p hmem => hp p (List.mem_cons_of_mem q hmem)),
      lookup_setKey_ne k q.1 q.2 d (fun he => hp q (List.mem_cons_self q rest) he.symm)]

/-- Every element of a field assignment either carries the assigned key
or comes from the original patch. -/
theorem mem_setKey (k' : String) (v : JsValue) (patch : Doc) :
    ∀ p ∈ setKey k' v patch, p.1 = k' ∨ p ∈ patch := by
  induction patch with
  | nil =>
    intro p hp
    simp only [setKey, List.mem_singleton] at hp
    simp [hp]
  | cons q rest ih =>
    intro p hp
    by_cases hq : q.1 = k'
    · simp only [setKey, if_pos hq] at hp
      rcases List.mem_cons.mp hp with hp1 | hp1
      · simp [hp1]
      · exact Or.inr (List.mem_cons_of_mem q hp1)
    · simp only [setKey, if_neg hq] at hp
      rcases List.mem_cons.mp hp with hp1 | hp1
      · exact Or.inr (by simp [hp1])
      · rcases ih p hp1 with h | h
        · exact Or.inl h
        · exact Or.inr (List.mem_cons_of_mem q h)

/-- The patch produced by the email-validation step keeps avoiding any
key other than email. -/
theorem updateEmailStep_keys (patch p2 : Doc) (k : String) (hk : "email" ≠ k)
    (hp : ∀ p ∈ patch, p.1 ≠ k) (he : updateEmailStep patch = .ok p2) :
    ∀ p ∈ p2, p.1 ≠ k := by
  unfold updateEmailStep at he
  split at he
  · split at he
    · split at he
      · cases he
        intro p hmem
        rcases mem_setKey "email" (lowerEmailValue _) patch p hmem with h | h
        · rw [h]; exact hk
        · exact hp p h
      · cases he
    · cases he
      exact hp
  · cases he
    exact hp

/-- The patch produced by the numeric-validation loop keeps avoiding any
key outside the processed field list. -/
theorem updateNumericStep_keys (fields : List String) :
    ∀ (patch p3 : Doc) (k : String), (∀ f ∈ fields, f ≠ k) →
      (∀ p ∈ patch, p.1 ≠ k) → updateNumericStep fields patch = .ok p3 →
      ∀ p ∈ p3, p.1 ≠ k := by
  induction fields with
  | nil =>
    intro patch p3 k _ hp hn
    cases hn
    exact hp
  | cons f rest ih =>
    intro patch p3 k hf hp hn
    unfold updateNumericStep at hn
    split at hn
    · split at hn
      · split at hn
        · cases hn
        · refine ih _ p3 k (fun g hg => hf g (List.mem_cons_of_mem f hg)) ?_ hn
          intro p hmem
          rcases mem_setKey f (.vnum _) patch p hmem with h | h
          · rw [h]
            exact hf f (List.mem_cons_self f rest)
          · exact hp p h
      · cases hn
    · exact ih patch p3 k (fun g hg => hf g (List.mem_cons_of_mem f hg)) hp hn

/-- The keys of the sanitized patch avoid every protected key. -/
theorem sanitizePatch_keys (patch : Doc) (k : String) (hk : k ∈ protectedKeys) :
    ∀ p ∈ sanitizePatch patch, p.1 ≠ k := by
  intro p hp he
  have h2 := (List.mem_filter.mp hp).2
  rw [he] at h2
  simp only [decide_eq_true_eq] at h2
  exact h2 (List.elem_eq_true_of_mem hk)

/-- Looking up a key in a list mapped by a key-preserving modification
applies the modification to the looked-up value. -/
theorem lookup_map_modify (l : List (Nat × StoredReg)) (id rid : Nat)
    (g : StoredReg → StoredReg) :
    (l.map (fun p => if p.1 = id then (p.1, g p.2) else p)).lookup rid =
      (l.lookup rid).map (fun s => if rid = id then g s else s) := by
  induction l with
  | nil => rfl
  | cons q rest ihq =>
    rcases q with ⟨k1, v1⟩
    have hhead : ((k1, v1) :: rest).map (fun p => if p.1 = id then (p.1, g p.2) else p) =
        (k1, if k1 = id then g v1 else v1) ::
          rest.map (fun p => if p.1 = id then (p.1, g p.2) else p) := by
      by_cases hqid : k1 = id <;> simp [hqid]
    rw [hhead]
    by_cases hq : rid = k1
    · subst hq
      simp [List.lookup]
    · have hbq : (rid == k1) = false := by simp [hq]
      simp [List.lookup, hbq, ihq]

/-- C9: an admin update via PUT leaves every stored record under its
identifier with its submittedAt and createdAt fields untouched: the
route deletes the three protected keys from the client patch before any
merge, so whatever the outcome (validation failure, missing document or
successful merge) the identifier and the creation-time fields survive. -/
theorem c9_update_preserves_protected_fields (id : Nat) (patch : Doc) (ts : JsValue)
    (st : DbState) (rid : Nat) (reg : StoredReg)
    (h : getRegistration rid st = some reg) :
    ∃ reg', getRegistration rid (adminUpdateRoute id patch ts st).2 = some reg' ∧
      reg'.fields.lookup "submittedAt" = reg.fields.lookup "submittedAt" ∧
      reg'.fields.lookup "createdAt" = reg.fields.lookup "createdAt" := by
  rcases he : updateEmailStep (sanitizePatch patch) with e | p2
  · simp only [adminUpdateRoute, he]
    exact ⟨reg, h, rfl, rfl⟩
  · rcases hn : updateNumericStep numericUpdateFields p2 with e | p3
    · simp only [adminUpdateRoute, he, hn]
      exact ⟨reg, h, rfl, rfl⟩
    · rcases hu : updateRegistrationDb id p3 ts st with e | st'
      · simp only [adminUpdateRoute, he, hn, hu]
        exact ⟨reg, h, rfl, rfl⟩
      · simp only [adminUpdateRoute, he, hn, hu]
        have hkeys : ∀ (k : String), k ∈ protectedKeys → "email" ≠ k →
            (∀ f ∈ numericUpdateFields, f ≠ k) → ∀ p ∈ p3, p.1 ≠ k := by
          intro k hk hke hkf
          exact updateNumericStep_keys numericUpdateFields p2 p3 k hkf
            (updateEmailStep_keys (sanitizePatch patch) p2 k hke
              (sanitizePatch_keys patch k hk) he) hn
        have hsubmitted : ∀ p ∈ p3, p.1 ≠ "submittedAt" :=
          hkeys "submittedAt" (by decide) (by decide) (by decide)
        have hcreated : ∀ p ∈ p3, p.1 ≠ "createdAt" :=
          hkeys "createdAt" (by decide) (by decide) (by decide)
        unfold updateRegistrationDb at hu
        split at hu
        · cases hu
          simp only [getRegistration] at h ⊢
          rw [lookup_map_modify st.regs id rid
            (fun s => { s with fields := mergeDoc s.fields (setKey "updatedAt" ts p3) }), h]
          have hpayload : ∀ (k : String), k ≠ "updatedAt" → (∀ p ∈ p3, p.1 ≠ k) →
              ∀ p ∈ setKey "updatedAt" ts p3, p.1 ≠ k := by
            intro k hku hk3 p hp
            rcases mem_setKey "updatedAt" ts p3 p hp with hh | hh
            · rw [hh]; exact fun hc => hku hc.symm
            · exact hk3 p hh
          by_cases hrid : rid = id
          · refine ⟨_, rfl, ?_, ?_⟩
            · simp only [if_pos hrid]
              exact lookup_mergeDoc_notin _ _ _
                (hpayload "submittedAt" (by decide) hsubmitted)
            · simp only [if_pos hrid]
              exact lookup_mergeDoc_notin _ _ _
                (hpayload "createdAt" (by decide) hcreated)
          · exact ⟨reg, by simp [hrid], rfl, rfl⟩
        · cases hu

/-- Witness for C9: a patch trying to overwrite id, submittedAt and
createdAt leaves them as stored. -/
theorem c9_update_witness :
    ∃ reg', getRegistration 5
        (adminUpdateRoute 5
          [("id", .vnum 9), ("submittedAt", .vstr ("later").toList),
           ("createdAt", .vstr ("later").toList), ("status", .vstr ("approved").toList)]
          (.vstr ("ts2").toList)
          ⟨6, [(5, ⟨[("submittedAt", .vstr ("t0").toList), ("createdAt", .vstr ("t0").toList)],
            none⟩)], []⟩).2 = some reg' ∧
      reg'.fields.lookup "submittedAt" =
        (List.lookup "submittedAt"
          [("submittedAt", JsValue.vstr ("t0").toList), ("createdAt", JsValue.vstr ("t0").toList)]) ∧
      reg'.fields.lookup "createdAt" =
        (List.lookup "createdAt"
          [("submittedAt", JsValue.vstr ("t0").toList), ("createdAt", JsValue.vstr ("t0").toList)]) :=
  c9_update_preserves_protected_fields 5
    [("id", .vnum 9), ("submittedAt", .vstr ("later").toList),
     ("createdAt", .vstr ("later").toList), ("status", .vstr ("approved").toList)]
    (.vstr ("ts2").toList)
    ⟨6, [(5, ⟨[("submittedAt", .vstr ("t0").toList), ("createdAt", .vstr ("t0").toList)],
      none⟩)], []⟩ 5
    ⟨[("submittedAt", .vstr ("t0").toList), ("createdAt", .vstr ("t0").toList)], none⟩
    (by decide)

/-- C6: recipient resolution follows the priority order: the sentinel
"all" anywhere in the token list expands to every registration's email;
otherwise a sole token containing an at sign is used as a literal single
address; otherwise every token acts as a committee code, matching
case-insensitively (tokens equal up to case resolve identically) and
expanding to the emails of the registrations whose committees contain
the upper-cased code. -/
theorem c6_recipient_resolution (tokens : List Str) (regs : List Registration) :
    (("all").toList ∈ tokens → resolveRecipients tokens regs = regs.map (·.email)) ∧
    (("all").toList ∉ tokens → ∀ t, tokens = [t] → '@' ∈ t →
      resolveRecipients tokens regs = [t]) ∧
    (("all").toList ∉ tokens → (∀ t, tokens = [t] → '@' ∉ t) →
      (∀ e, e ∈ resolveRecipients tokens regs ↔
        ∃ t ∈ tokens, ∃ r ∈ regs, r.email = e ∧ jsToUpper t ∈ r.committees) ∧
      (∀ tokens', ("all").toList ∉ tokens' → (∀ t, tokens' = [t] → '@' ∉ t) →
        tokens.map jsToUpper = tokens'.map jsToUpper →
        resolveRecipients tokens regs = resolveRecipients tokens' regs)) := by
  have hbranch : ∀ (ts : List Str), ("all").toList ∉ ts → (∀ t, ts = [t] → '@' ∉ t) →
      resolveRecipients ts regs =
        ts.flatMap (fun committee =>
          (regs.filter (fun r => r.committees.contains (jsToUpper committee))).map (·.email)) := by
    intro ts hall hsingle
    unfold resolveRecipients
    rw [if_neg (fun hc => hall (List.mem_of_elem_eq_true hc))]
    rcases ts with _ | ⟨t, rest⟩
    · rfl
    · rcases rest with _ | ⟨t2, rest2⟩
      · rw [if_neg]
        intro hcond
        exact hsingle t rfl (List.mem_of_elem_eq_true hcond.2)
      · rw [if_neg]
        intro hcond
        simp at hcond
  refine ⟨?_, ?_, ?_⟩
  · intro hall
    unfold resolveRecipients
    rw [if_pos (List.elem_eq_true_of_mem hall)]
  · intro hall t ht hat
    subst ht
    unfold resolveRecipients
    rw [if_neg (fun hc => hall (List.mem_of_elem_eq_true hc)), if_pos]
    exact ⟨rfl, List.elem_eq_true_of_mem hat⟩
  · intro hall hsingle
    constructor
    · intro e
      rw [hbranch tokens hall hsingle]
      simp only [List.mem_flatMap, List.mem_map, List.mem_filter]
      constructor
      · rintro ⟨t, hts, r, ⟨hr, hc⟩, he⟩
        exact ⟨t, hts, r, hr, he, List.mem_of_elem_eq_true hc⟩
      · rintro ⟨t, hts, r, hr, he, hc⟩
        exact ⟨t, hts, r, ⟨hr, List.elem_eq_true_of_mem hc⟩, he⟩
    · intro tokens' hall' hsingle' hmap
      rw [hbranch tokens hall hsingle, hbranch tokens' hall' hsingle']
      have hcomp : ∀ ts : List Str,
          (ts.flatMap fun committee =>
            (regs.filter fun r => r.committees.contains (jsToUpper committee)).map (·.email)) =
          (ts.map jsToUpper).flatMap
            (fun u => (regs.filter fun r => r.committees.contains u).map (·.email)) := by
        intro ts
        rw [List.flatMap_map]
      rw [hcomp, hcomp, hmap]

/-- Witness for C6: the sentinel takes priority, a sole address is used
literally, and lower-case committee codes match the stored upper-case
codes. -/
theorem c6_recipient_witness :
    resolveRecipients [("all").toList]
        [⟨("a@x.co").toList, ("A").toList, [("UNSC").toList], [], []⟩,
         ⟨("b@x.co").toList, ("B").toList, [("CCC").toList], [], []⟩] =
      [("a@x.co").toList, ("b@x.co").toList] ∧
    resolveRecipients [("solo@x.co").toList]
        [⟨("a@x.co").toList, ("A").toList, [("UNSC").toList], [], []⟩] =
      [("solo@x.co").toList] ∧
    (("b@x.co").toList ∈ resolveRecipients [("ccc").toList]
        [⟨("a@x.co").toList, ("A").toList, [("UNSC").toList], [], []⟩,
         ⟨("b@x.co").toList, ("B").toList, [("CCC").toList], [], []⟩] ↔
      ∃ t ∈ [("ccc").toList],
        ∃ r ∈ [(⟨("a@x.co").toList, ("A").toList, [("UNSC").toList], [], []⟩ : Registration),
               ⟨("b@x.co").toList, ("B").toList, [("CCC").toList], [], []⟩],
          r.email = ("b@x.co").toList ∧ jsToUpper t ∈ r.committees) := by
  refine ⟨?_, ?_, ?_⟩
  · exact (c6_recipient_resolution [("all").toList] _).1 (by decide)
  · exact (c6_recipient_resolution [("solo@x.co").toList] _).2.1 (by decide) _ rfl (by decide)
  · exact ((c6_recipient_resolution [("ccc").toList] _).2.2 (by decide)
      (by intro t ht; cases ht; decide)).1 _

/-- The send loop attempts every resolved address in order and tallies
outcomes: sent counts the successes, failed the failures, one error
string per failure. -/
theorem sendLoop_spec (env : MailEnv) (emails : List Str) :
    (sendLoop env emails).2 = emails ∧
    (sendLoop env emails).1.sent = emails.countP (fun e => (env.sendErr e).isNone) ∧
    (sendLoop env emails).1.failed = emails.countP (fun e => (env.sendErr e).isSome) ∧
    (sendLoop env emails).1.errors.length = (sendLoop env emails).1.failed := by
  induction emails with
  | nil => exact ⟨rfl, rfl, rfl, rfl⟩
  | cons e rest ih =>
    rcases hs : env.sendErr e with _ | m <;>
      simp [sendLoop, hs, List.countP_cons, ih.1, ih.2.1, ih.2.2.1, ih.2.2.2]

/-- C7: with a nonempty resolved recipient set, a failing SMTP
verification yields a single 500 configuration error with zero send
attempts; a successful verification dispatches exactly one sequential
attempt per resolved address (failures never stop later sends) and the
route answers 200 with the tally, whose sent and failed counts partition
the attempts and whose error list has one entry per failure. -/
theorem c7_dispatch_tally (env : MailEnv) (recipients : List Str) (subject message : Str)
    (provider : String) (regs : List Registration)
    (hr : resolveRecipients recipients regs ≠ [])
    (hs : subject ≠ []) (hm : message ≠ []) (hp : provider ∈ smtpProviders) :
    (env.verifyOk = false →
      (sendMailRoute env recipients subject message provider regs).1.status = 500 ∧
      (sendMailRoute env recipients subject message provider regs).1.ok = false ∧
      (sendMailRoute env recipients subject message provider regs).2 = []) ∧
    (env.verifyOk = true →
      (sendMailRoute env recipients subject message provider regs).2 =
        resolveRecipients recipients regs ∧
      (sendMailRoute env recipients subject message provider regs).1.status = 200 ∧
      (sendMailRoute env recipients subject message provider regs).1.ok = true ∧
      ∃ res, (sendMailRoute env recipients subject message provider regs).1.results = some res ∧
        res.sent = (resolveRecipients recipients regs).countP
          (fun e => (env.sendErr e).isNone) ∧
        res.failed = (resolveRecipients recipients regs).countP
          (fun e => (env.sendErr e).isSome) ∧
        res.sent + res.failed = (resolveRecipients recipients regs).length ∧
        res.errors.length = res.failed) := by
  have hrec : recipients ≠ [] := by
    intro h0
    apply hr
    rw [h0]
    simp [resolveRecipients]
  have hsm : ¬ (subject = [] ∨ message = []) := by
    intro h0
    rcases h0 with h0 | h0
    · exact hs h0
    · exact hm h0
  have hprov : smtpProviders.contains provider := List.elem_eq_true_of_mem hp
  constructor
  · intro hv
    unfold sendMailRoute
    rw [if_neg hrec, if_neg hsm, if_neg (fun hc => hr hc), if_neg (by simp [hprov, hp]),
      if_pos (by simp [hv])]
    exact ⟨rfl, rfl, rfl⟩
  · intro hv
    unfold sendMailRoute
    rw [if_neg hrec, if_neg hsm, if_neg (fun hc => hr hc), if_neg (by simp [hprov, hp]),
      if_neg (by simp [hv])]
    have hl := sendLoop_spec env (resolveRecipients recipients regs)
    refine ⟨hl.1, rfl, rfl, _, rfl, hl.2.1, hl.2.2.1, ?_, hl.2.2.2⟩
    rw [hl.2.1, hl.2.2.1]
    have := List.length_eq_countP_add_countP (fun e => (env.sendErr e).isNone)
      (l := resolveRecipients recipients regs)
    rw [this]
    congr 1
    apply List.countP_congr
    intro e _
    rcases env.sendErr e with _ | m <;> simp

/-- Witness for C7: three registrations and the sentinel recipient list
dispatch exactly three attempts under a verifying transporter, and a
failing verification dispatches none. -/
theorem c7_dispatch_witness :
    ((sendMailRoute ⟨true, fun _ => none⟩ [("all").toList] ("s").toList ("m").toList
        "gmail"
        [⟨("a@x.co").toList, [], [], [], []⟩, ⟨("b@x.co").toList, [], [], [], []⟩,
         ⟨("c@x.co").toList, [], [], [], []⟩]).2 =
      resolveRecipients [("all").toList]
        [⟨("a@x.co").toList, [], [], [], []⟩, ⟨("b@x.co").toList, [], [], [], []⟩,
         ⟨("c@x.co").toList, [], [], [], []⟩]) ∧
    (sendMailRoute ⟨true, fun _ => none⟩ [("all").toList] ("s").toList ("m").toList
        "gmail"
        [⟨("a@x.co").toList, [], [], [], []⟩, ⟨("b@x.co").toList, [], [], [], []⟩,
         ⟨("c@x.co").toList, [], [], [], []⟩]).2.length = 3 ∧
    (sendMailRoute ⟨false, fun _ => none⟩ [("all").toList] ("s").toList ("m").toList
        "gmail"
        [⟨("a@x.co").toList, [], [], [], []⟩]).2 = [] ∧
    (sendMailRoute ⟨false, fun _ => none⟩ [("all").toList] ("s").toList ("m").toList
        "gmail"
        [⟨("a@x.co").toList, [], [], [], []⟩]).1.status = 500 := by
  have h1 := (c7_dispatch_tally ⟨true, fun _ => none⟩ [("all").toList] ("s").toList
    ("m").toList "gmail"
    [⟨("a@x.co").toList, [], [], [], []⟩, ⟨("b@x.co").toList, [], [], [], []⟩,
     ⟨("c@x.co").toList, [], [], [], []⟩]
    (by decide) (by decide) (by decide) (by decide)).2 rfl
  have h2 := (c7_dispatch_tally ⟨false, fun _ => none⟩ [("all").toList] ("s").toList
    ("m").toList "gmail" [⟨("a@x.co").toList, [], [], [], []⟩]
    (by decide) (by decide) (by decide) (by decide)).1 rfl
  exact ⟨h1.1, by rw [h1.1]; decide, h2.2.2, h2.1⟩

/-- The scan of an empty subject is empty at any fuel. -/
theorem replaceAllF_nilSubject (n : Nat) (p r : Str) : replaceAllF n p r [] = [] := by
  cases n <;> rfl

/-- The scan result does not depend on the fuel once the fuel covers the
subject length, for any nonempty pattern. -/
theorem replaceAllF_fuel (p r : Str) (hp : p ≠ []) :
    ∀ (n m : Nat) (s : Str), s.length ≤ n → s.length ≤ m →
      replaceAllF n p r s = replaceAllF m p r s := by
  intro n
  induction n with
  | zero =>
    intro m s hn _
    have : s = [] := List.eq_nil_of_length_eq_zero (Nat.le_zero.mp hn)
    rw [this, replaceAllF_nilSubject, replaceAllF_nilSubject]
  | succ n ih =>
    intro m s hn hm
    rcases s with _ | ⟨c, rest⟩
    · rw [replaceAllF_nilSubject, replaceAllF_nilSubject]
    · rcases m with _ | m
      · simp at hm
      · have hp1 : 0 < p.length := List.length_pos.mpr hp
        simp only [List.length_cons] at hn hm
        simp only [replaceAllF]
        cases hpre : p.isPrefixOf (c :: rest)
        · simp only [cond_false]
          rw [ih m rest (by omega) (by omega)]
        · simp only [cond_true]
          rw [ih m ((c :: rest).drop p.length)
            (by simp only [List.length_drop, List.length_cons]; omega)
            (by simp only [List.length_drop, List.length_cons]; omega)]

/-- One scan step when the pattern matches at the head. -/
theorem replaceAll_pos (p r s : Str) (hp : p ≠ []) (hs : s ≠ [])
    (h : p.isPrefixOf s = true) :
    replaceAll p r s = r ++ replaceAll p r (s.drop p.length) := by
  rcases s with _ | ⟨c, rest⟩
  · exact absurd rfl hs
  · have hp1 : 0 < p.length := List.length_pos.mpr hp
    unfold replaceAll
    simp only [List.length_cons, replaceAllF, h, cond_true]
    rw [replaceAllF_fuel p r hp rest.length ((c :: rest).drop p.length).length
      ((c :: rest).drop p.length)
      (by simp only [List.length_drop, List.length_cons]; omega) (Nat.le_refl _)]

/-- One scan step when the pattern does not match at the head. -/
theorem replaceAll_neg (p r : Str) (c : Char) (rest : Str)
    (h : p.isPrefixOf (c :: rest) = false) :
    replaceAll p r (c :: rest) = c :: replaceAll p r rest := by
  unfold replaceAll
  simp only [List.length_cons, replaceAllF, h, cond_false]

/-- A pattern starting with q scans over any text free of q. -/
theorem replaceAll_append_headFree (q : Char) (p' r : Str) :
    ∀ (s rest : Str), (∀ c ∈ s, c ≠ q) →
      replaceAll (q :: p') r (s ++ rest) = s ++ replaceAll (q :: p') r rest := by
  intro s
  induction s with
  | nil => intro rest _; simp
  | cons c s' ih =>
    intro rest hfree
    have hc : c ≠ q := hfree c (List.mem_cons_self c s')
    have hqc : (q == c) = false := by
      rw [beq_eq_false_iff_ne]
      exact fun h => hc h.symm
    have hpre : (q :: p').isPrefixOf (c :: (s' ++ rest)) = false := by
      simp [List.isPrefixOf, hqc]
    rw [List.cons_append, replaceAll_neg _ _ _ _ hpre,
      ih rest (fun d hd => hfree d (List.mem_cons_of_mem c hd))]
    rfl

/-- A list is a prefix of itself followed by anything. -/
theorem isPrefixOf_append_self (l m : Str) : l.isPrefixOf (l ++ m) = true := by
  induction l with
  | nil => simp [List.isPrefixOf]
  | cons c l' ih => simp [List.isPrefixOf, ih]

/-- Two distinct close-brace-free keys give non-matching closed
patterns, whatever follows. -/
theorem close_not_pref :
    ∀ (k k' rest : Str), (∀ c ∈ k, c ≠ '}') → (∀ c ∈ k', c ≠ '}') → k ≠ k' →
      (k ++ ['}', '}']).isPrefixOf (k' ++ ['}', '}'] ++ rest) = false := by
  intro k
  induction k with
  | nil =>
    intro k' rest _ hk' hne
    rcases k' with _ | ⟨c', k''⟩
    · exact absurd rfl hne
    · have hb : ('}' == c') = false := by
        rw [beq_eq_false_iff_ne]
        exact fun h => hk' c' (List.mem_cons_self c' k'') h.symm
      simp [List.isPrefixOf, hb]
  | cons c k2 ih =>
    intro k' rest hk hk' hne
    rcases k' with _ | ⟨c', k2'⟩
    · have hb : (c == '}') = false := by
        rw [beq_eq_false_iff_ne]
        exact hk c (List.mem_cons_self c k2)
      simp [List.isPrefixOf, hb]
    · by_cases hc : c = c'
      · subst hc
        have hne2 : k2 ≠ k2' := fun h => hne (by rw [h])
        simp only [List.cons_append, List.isPrefixOf, beq_self_eq_true, Bool.true_and]
        exact ih k2' rest (fun d hd => hk d (List.mem_cons_of_mem c hd))
          (fun d hd => hk' d (List.mem_cons_of_mem c hd)) hne2
      · have hb : (c == c') = false := beq_eq_false_iff_ne.mpr hc
        simp [List.isPrefixOf, hb]

/-- The placeholder of one brace-free key never matches at the start of
another brace-free key's slot. -/
theorem ph_not_pref (k k' rest : Str) (hk : braceFree k) (hk' : braceFree k')
    (hne : k ≠ k') : (ph k).isPrefixOf (ph k' ++ rest) = false := by
  simp only [ph, List.cons_append, List.isPrefixOf, beq_self_eq_true, Bool.true_and]
  have h := close_not_pref k k' rest (fun c hc => (hk c hc).2) (fun c hc => (hk' c hc).2) hne
  simpa [List.append_assoc] using h

/-- A placeholder pattern scans over any open-brace-free text. -/
theorem replaceAll_ph_append_free (k v : Str) (s rest : Str)
    (h : ∀ c ∈ s, c ≠ '{') :
    replaceAll (ph k) v (s ++ rest) = s ++ replaceAll (ph k) v rest := by
  rw [show ph k = '{' :: ('{' :: (k ++ ['}', '}'])) from rfl]
  exact replaceAll_append_headFree '{' _ v s rest h

/-- Scanning a slot of the same key consumes it and emits the
replacement. -/
theorem replaceAll_ph_self (k r rest : Str) :
    replaceAll (ph k) r (ph k ++ rest) = r ++ replaceAll (ph k) r rest := by
  rw [replaceAll_pos (ph k) r (ph k ++ rest) (by simp [ph]) (by simp [ph])
    (isPrefixOf_append_self (ph k) rest)]
  congr 1
  rw [List.drop_left]

/-- Scanning a slot of a different brace-free key copies the slot
verbatim. -/
theorem replaceAll_ph_other (k k' r rest : Str) (hk : braceFree k) (hk' : braceFree k')
    (hne : k' ≠ k) :
    replaceAll (ph k) r (ph k' ++ rest) = ph k' ++ replaceAll (ph k) r rest := by
  have h1 : (ph k).isPrefixOf (ph k' ++ rest) = false :=
    ph_not_pref k k' rest hk hk' (fun h => hne h.symm)
  have hshape : ph k' ++ rest = '{' :: ('{' :: ((k' ++ ['}', '}']) ++ rest)) := by
    simp [ph]
  rw [hshape] at h1
  rw [hshape, replaceAll_neg _ _ _ _ h1]
  have h2 : (ph k).isPrefixOf ('{' :: ((k' ++ ['}', '}']) ++ rest)) = false := by
    simp only [ph, List.isPrefixOf, beq_self_eq_true, Bool.true_and]
    rcases k' with _ | ⟨c', k2'⟩
    · simp [List.isPrefixOf]
    · have hb : ('{' == c') = false := by
        rw [beq_eq_false_iff_ne]
        exact fun h => (hk' c' (List.mem_cons_self c' k2')).1 h.symm
      simp [List.isPrefixOf, hb]
  rw [replaceAll_neg _ _ _ _ h2]
  have h3 : replaceAll (ph k) r ((k' ++ ['}', '}']) ++ rest) =
      (k' ++ ['}', '}']) ++ replaceAll (ph k) r rest := by
    apply replaceAll_append_headFree
    intro c hc
    rcases List.mem_append.mp hc with hc | hc
    · exact (hk' c hc).1
    · simp only [List.mem_cons, List.mem_singleton] at hc
      rcases hc with hc | hc | hc
      · rw [hc]; decide
      · rw [hc]; decide
      · exact absurd hc (by simp)
  rw [h3]
  simp [ph]

/-- Prepending literal text to an explicit template. -/
theorem interleave_append (a b : Str) (ps : List (Str × Str)) :
    interleave (a ++ b) ps = a ++ interleave b ps := by
  cases ps <;> simp [interleave]

/-- Unfolding of substK on a slot carrying the substituted key. -/
theorem substK_cons_self (k v s0 s : Str) (ps : List (Str × Str)) :
    substK k v s0 ((k, s) :: ps) =
      (s0 ++ v ++ (substK k v s ps).1, (substK k v s ps).2) := by
  simp [substK]

/-- Unfolding of substK on a slot carrying a different key. -/
theorem substK_cons_other (k v s0 k' s : Str) (ps : List (Str × Str)) (h : k' ≠ k) :
    substK k v s0 ((k', s) :: ps) =
      (s0, (k', (substK k v s ps).1) :: (substK k v s ps).2) := by
  simp [substK, h]

/-- Unfolding of lookupSub on its own leading variable. -/
theorem lookupSub_cons_self (k : Str) (v : Option Str) (vs : List (Str × Option Str)) :
    lookupSub ((k, v) :: vs) k = v.getD [] := by
  simp [lookupSub]

/-- Unfolding of lookupSub past a different leading variable. -/
theorem lookupSub_cons_other (k k' : Str) (v : Option Str) (vs : List (Str × Option Str))
    (h : k ≠ k') : lookupSub ((k, v) :: vs) k' = lookupSub vs k' := by
  simp [lookupSub, h]

/-- One variable's global pass maps an explicit brace-free template to
the explicit template with that key's slots substituted. -/
theorem replaceAll_interleave (k v : Str) (hk : braceFree k) :
    ∀ (ps : List (Str × Str)) (s0 : Str), braceFree s0 →
      (∀ p ∈ ps, braceFree p.1 ∧ braceFree p.2) →
      replaceAll (ph k) v (interleave s0 ps) =
        interleave (substK k v s0 ps).1 (substK k v s0 ps).2 := by
  intro ps
  induction ps with
  | nil =>
    intro s0 hs0 _
    have h0 : interleave s0 ([] : List (Str × Str)) = s0 ++ [] := by simp [interleave]
    rw [h0, replaceAll_ph_append_free k v s0 [] (fun c hc => (hs0 c hc).1)]
    simp [substK, interleave, replaceAll, replaceAllF]
  | cons q ps' ih =>
    intro s0 hs0 hps
    rcases q with ⟨k', s⟩
    have hk' : braceFree k' := (hps (k', s) (List.mem_cons_self _ _)).1
    have hseg : braceFree s := (hps (k', s) (List.mem_cons_self _ _)).2
    have hps' : ∀ p ∈ ps', braceFree p.1 ∧ braceFree p.2 :=
      fun p hp => hps p (List.mem_cons_of_mem _ hp)
    have hstep : interleave s0 ((k', s) :: ps') = s0 ++ (ph k' ++ interleave s ps') := by
      simp [interleave]
    rw [hstep, replaceAll_ph_append_free k v s0 _ (fun c hc => (hs0 c hc).1)]
    by_cases hkk : k' = k
    · subst hkk
      rw [replaceAll_ph_self, ih s hseg hps', substK_cons_self]
      rw [interleave_append]
      simp [List.append_assoc]
    · rw [replaceAll_ph_other k k' v (interleave s ps') hk hk' hkk, ih s hseg hps',
        substK_cons_other k v s0 k' s ps' hkk]
      simp [interleave]

/-- One variable's pass keeps the explicit template brace-free when the
substituted value is brace-free. -/
theorem substK_braceFree (k v : Str) (hv : braceFree v) :
    ∀ (ps : List (Str × Str)) (s0 : Str), braceFree s0 →
      (∀ p ∈ ps, braceFree p.1 ∧ braceFree p.2) →
      braceFree (substK k v s0 ps).1 ∧
        ∀ p ∈ (substK k v s0 ps).2, braceFree p.1 ∧ braceFree p.2 := by
  have happ : ∀ a b : Str, braceFree a → braceFree b → braceFree (a ++ b) := by
    intro a b ha hb c hc
    rcases List.mem_append.mp hc with hc | hc
    · exact ha c hc
    · exact hb c hc
  intro ps
  induction ps with
  | nil =>
    intro s0 hs0 _
    exact ⟨hs0, by simp [substK]⟩
  | cons q ps' ih =>
    intro s0 hs0 hps
    rcases q with ⟨k', s⟩
    have hseg : braceFree s := (hps (k', s) (List.mem_cons_self _ _)).2
    have hps' : ∀ p ∈ ps', braceFree p.1 ∧ braceFree p.2 :=
      fun p hp => hps p (List.mem_cons_of_mem _ hp)
    have hih := ih s hseg hps'
    by_cases hkk : k' = k
    · subst hkk
      rw [substK_cons_self]
      exact ⟨happ _ _ (happ _ _ hs0 hv) hih.1, hih.2⟩
    · rw [substK_cons_other k v s0 k' s ps' hkk]
      refine ⟨hs0, ?_⟩
      intro p hp
      rcases List.mem_cons.mp hp with hp1 | hp1
      · rw [hp1]
        exact ⟨(hps (k', s) (List.mem_cons_self _ _)).1, hih.1⟩
      · exact hih.2 p hp1

/-- At the representation level, one variable's pass followed by
simultaneous substitution of the remaining variables equals simultaneous
substitution of the whole variable list. -/
theorem substK_flatSub (k : Str) (v : Option Str) (vs : List (Str × Option Str)) :
    ∀ (ps : List (Str × Str)) (s0 : Str),
      flatSub vs (substK k (v.getD []) s0 ps).1 (substK k (v.getD []) s0 ps).2 =
        flatSub ((k, v) :: vs) s0 ps := by
  intro ps
  induction ps with
  | nil => intro s0; simp [substK, flatSub]
  | cons q ps' ih =>
    intro s0
    rcases q with ⟨k', s⟩
    by_cases hkk : k' = k
    · subst hkk
      have hih := ih s
      rw [substK_cons_self]
      simp only [flatSub, List.map_cons, List.flatten_cons, lookupSub_cons_self] at hih ⊢
      simp [List.append_assoc, hih]
    · have hih := ih s
      rw [substK_cons_other k (v.getD []) s0 k' s ps' hkk]
      simp only [flatSub, List.map_cons, List.flatten_cons,
        lookupSub_cons_other k k' v vs (fun h => hkk h.symm)] at hih ⊢
      simp [List.append_assoc, hih]

/-- An explicit template flattens to the simultaneous substitution of
the empty variable list. -/
theorem interleave_eq_flatSub :
    ∀ (ps : List (Str × Str)) (s0 : Str), interleave s0 ps = flatSub [] s0 ps := by
  intro ps
  induction ps with
  | nil => intro s0; simp [interleave, flatSub]
  | cons q ps' ih =>
    intro s0
    rcases q with ⟨k', s⟩
    simp only [interleave, flatSub, List.map_cons, List.flatten_cons, lookupSub] at ih ⊢
    rw [ih s]
    simp [List.append_assoc]

/-- C8 (amended): rendering applies the variables in declaration order,
one global pass per variable, each pass replacing every occurrence of
that variable's double-brace placeholder with its value (the empty
string for an undefined value).  Because the passes are sequential, a
substituted value is itself scanned by the later variables' passes, so
placeholders are guaranteed not to interact only on benign inputs: when
keys, literal segments and values are brace-free, the result is exactly
the simultaneous substitution that replaces each placeholder with its
variable's value (placeholders of unlisted variables staying verbatim). -/
theorem c8_rendering_is_simultaneous_on_brace_free (vars : List (Str × Option Str)) :
    ∀ (ps : List (Str × Str)) (s0 : Str), braceFree s0 →
      (∀ p ∈ ps, braceFree p.1 ∧ braceFree p.2) →
      (∀ q ∈ vars, braceFree q.1 ∧ braceFree (q.2.getD [])) →
      replaceTemplateVariables (interleave s0 ps) vars = flatSub vars s0 ps := by
  induction vars with
  | nil =>
    intro ps s0 _ _ _
    exact interleave_eq_flatSub ps s0
  | cons q vs ih =>
    intro ps s0 hs0 hps hvars
    rcases q with ⟨k, v⟩
    have hk : braceFree k := (hvars (k, v) (List.mem_cons_self _ _)).1
    have hv : braceFree (v.getD []) := (hvars (k, v) (List.mem_cons_self _ _)).2
    have hstep : replaceTemplateVariables (interleave s0 ps) ((k, v) :: vs) =
        replaceTemplateVariables (replaceAll (ph k) (v.getD []) (interleave s0 ps)) vs := rfl
    rw [hstep, replaceAll_interleave k (v.getD []) hk ps s0 hs0 hps]
    have hinv := substK_braceFree k (v.getD []) hv ps s0 hs0 hps
    rw [ih _ _ hinv.1 hinv.2 (fun q hq => hvars q (List.mem_cons_of_mem _ hq))]
    exact substK_flatSub k v vs ps s0

/-- Witness for C8 (amended): a benign template with one placeholder
renders to the simultaneous substitution. -/
theorem c8_rendering_witness :
    replaceTemplateVariables (interleave ("Hello ").toList [(("name").toList, ("!").toList)])
        [(("name").toList, some ("Ada").toList)] =
      flatSub [(("name").toList, some ("Ada").toList)] ("Hello ").toList
        [(("name").toList, ("!").toList)] ∧
    flatSub [(("name").toList, some ("Ada").toList)] ("Hello ").toList
        [(("name").toList, ("!").toList)] = ("Hello Ada!").toList :=
  ⟨c8_rendering_is_simultaneous_on_brace_free
      [(("name").toList, some ("Ada").toList)]
      [(("name").toList, ("!").toList)] ("Hello ").toList
      (by decide) (by decide) (by decide),
    by decide⟩

/-- Counterexample to C8 as stated: placeholders do interact.  The
template is the single placeholder of variable a; a's declared value is
the placeholder of the later variable b, and b's value is X.  A single
global pass per variable with non-interacting placeholders would leave
a's value verbatim (the simultaneous substitution below), but the code's
sequential passes re-substitute it, producing X. -/
theorem c8_interaction_counterexample :
    replaceTemplateVariables (interleave [] [(("a").toList, [])])
        [(("a").toList, some (ph ("b").toList)), (("b").toList, some ("X").toList)] =
      ("X").toList ∧
    flatSub [(("a").toList, some (ph ("b").toList)), (("b").toList, some ("X").toList)]
        [] [(("a").toList, [])] = ph ("b").toList ∧
    ("X").toList ≠ ph ("b").toList := ⟨by decide, by decide, by decide⟩

/-- Looking up an identifier in a filtered registration list that drops
exactly that identifier yields nothing. -/
theorem lookup_filter_self (id : Nat) (l : List (Nat × StoredReg)) :
    (l.filter (fun p => decide (p.1 ≠ id))).lookup id = none := by
  induction l with
  | nil => rfl
  | cons q rest ih =>
    by_cases hq : q.1 = id
    · have hf : decide (q.1 ≠ id) = false := by simp [hq]
      rw [List.filter_cons, hf]
      simpa using ih
    · have hf : decide (q.1 ≠ id) = true := by simp [hq]
      have hb : (id == q.1) = false := by
        rw [beq_eq_false_iff_ne]
        exact fun h => hq h.symm
      rw [List.filter_cons, hf]
      simp only [if_true, List.lookup, hb]
      exact ih

/-- Filtering a registration list never makes a missing identifier
appear. -/
theorem lookup_filter_none (k : Nat) (l : List (Nat × StoredReg)) (f : Nat × StoredReg → Bool)
    (h : l.lookup k = none) : (l.filter f).lookup k = none := by
  induction l with
  | nil => rfl
  | cons q rest ih =>
    rcases hb : (k == q.1) with _ | _
    · simp only [List.lookup, hb] at h
      rw [List.filter_cons]
      by_cases hf : f q = true
      · rw [hf]
        simp only [if_true, List.lookup, hb]
        exact ih h
      · rw [Bool.not_eq_true] at hf
        rw [hf]
        simpa using ih h
    · simp [List.lookup, hb] at h

/-- Looking up an identifier that misses the front of an appended list
continues in the back. -/
theorem lookup_append_of_none (k : Nat) (l1 l2 : List (Nat × StoredReg))
    (h : l1.lookup k = none) : (l1 ++ l2).lookup k = l2.lookup k := by
  induction l1 with
  | nil => rfl
  | cons q rest ih =>
    rcases hb : (k == q.1) with _ | _
    · simp only [List.lookup, hb] at h
      simp [List.lookup, hb, ih h]
    · simp [List.lookup, hb] at h

/-- C1: if a submission passes field validation, reaches stub-record
creation, and the attachment-upload step then fails (any collected
violation or upload-call failure), the workflow answers 400 with the
joined failure message, the stub record is deleted (get on the created
identifier returns absent) and every attachment that did complete has
been removed from the object store. -/
theorem c1_upload_failure_compensation (env : UploadEnv) (data : Doc)
    (files : List (String × List JsFile)) (serverTs : Str) (st : DbState)
    (h : (uploadLoop env files).2 ≠ []) :
    (submitWorkflow env data files serverTs st).1.status = 400 ∧
    (submitWorkflow env data files serverTs st).1.ok = false ∧
    (submitWorkflow env data files serverTs st).1.message =
      joinErrors (uploadLoop env files).2 ∧
    getRegistration st.nextId (submitWorkflow env data files serverTs st).2 = none ∧
    ∀ p ∈ (uploadLoop env files).1,
      p.2.key ∉ (submitWorkflow env data files serverTs st).2.store := by
  have hup : uploadRegistrationFiles env files (createRegistration data serverTs st).2 =
      (.error (joinErrors (uploadLoop env files).2),
       { (createRegistration data serverTs st).2 with
         store := ((createRegistration data serverTs st).2.store ++
             ((uploadLoop env files).1.map (fun p => p.2.key))).filter
           (fun k => ¬ ((uploadLoop env files).1.map (fun p => p.2.key)).contains k) }) := by
    unfold uploadRegistrationFiles
    rw [if_pos h]
  refine ⟨?_, ?_, ?_, ?_, ?_⟩
  · simp only [submitWorkflow, hup]
  · simp only [submitWorkflow, hup]
  · simp only [submitWorkflow, hup]
  · simp only [submitWorkflow, hup, deleteRegistration, getRegistration]
    exact lookup_filter_self st.nextId _
  · simp only [submitWorkflow, hup, deleteRegistration]
    intro p hp hmem
    have h2 := (List.mem_filter.mp hmem).2
    simp only [decide_eq_true_eq] at h2
    exact h2 (List.elem_eq_true_of_mem
      (List.mem_map.mpr ⟨p, hp, rfl⟩))

/-- Witness for C1: a single required idCard whose upload call throws
makes the workflow reject with 400, delete the stub record and leave the
store empty. -/
theorem c1_compensation_witness :
    (submitWorkflow (fun _ _ => .error ("boom").toList) []
        [("idCard", [⟨("x.pdf").toList, ("application/pdf").toList, 100⟩])]
        ("t0").toList ⟨0, [], []⟩).1.status = 400 ∧
    getRegistration 0
        (submitWorkflow (fun _ _ => .error ("boom").toList) []
          [("idCard", [⟨("x.pdf").toList, ("application/pdf").toList, 100⟩])]
          ("t0").toList ⟨0, [], []⟩).2 = none := by
  have h := c1_upload_failure_compensation (fun _ _ => .error ("boom").toList) []
    [("idCard", [⟨("x.pdf").toList, ("application/pdf").toList, 100⟩])]
    ("t0").toList ⟨0, [], []⟩ (by decide)
  exact ⟨h.1, h.2.2.2.1⟩

/-- Looking up an identifier in its own singleton binding. -/
theorem lookup_singleton_self (k : Nat) (v : StoredReg) :
    List.lookup k [(k, v)] = some v := by
  simp [List.lookup]

/-- C2: in the form-upload route, whenever the required idCard upload
succeeds the submission is not aborted by optional-attachment upload
failures: each of munCertificates and chairingResume whose provided
file fails to upload is only logged by its catch handler and recorded
as null, the record is still created and the route answers success. -/
theorem c2_optional_failure_not_fatal (env : FormUploadEnv) (body : FormBody)
    (files : FormFiles) (serverTs : Str) (st : DbState) (u : Str)
    (hname : body.name ≠ []) (hemail : body.email ≠ []) (hphone : body.phone ≠ [])
    (hcollege : body.college ≠ []) (hdept : body.department ≠ []) (hyear : body.year ≠ [])
    (hid : files.idCard ≠ none)
    (cs ps : List Str)
    (hcs : decodeCheckbox (parseThrew body.committees ∨ parseThrew body.positions)
      body.committees = some cs)
    (hcsne : cs ≠ [])
    (hps : decodeCheckbox (parseThrew body.committees ∨ parseThrew body.positions)
      body.positions = some ps)
    (hpsne : ps ≠ [])
    (hup : env "idCard" = some u)
    (hfresh : st.regs.lookup st.nextId = none) :
    (formSubmitRoute env body files serverTs st).1.status = 200 ∧
    (formSubmitRoute env body files serverTs st).1.ok = true ∧
    (formSubmitRoute env body files serverTs st).1.registrationId = some st.nextId ∧
    ∃ reg, getRegistration st.nextId (formSubmitRoute env body files serverTs st).2 = some reg ∧
      reg.fields.lookup "idCardUrl" = some (.vstr u) ∧
      (files.munCertificates ≠ none → env "munCertificates" = none →
        reg.fields.lookup "munCertificatesUrl" = some .vnull) ∧
      (files.chairingResume ≠ none → env "chairingResume" = none →
        reg.fields.lookup "chairingResumeUrl" = some .vnull) := by
  simp only [formSubmitRoute]
  rw [if_neg hname, if_neg hemail, if_neg hphone, if_neg hcollege, if_neg hdept,
    if_neg hyear, if_neg hid, hcs, hps]
  simp only [if_neg hcsne, if_neg hpsne]
  rw [hup]
  refine ⟨rfl, rfl, rfl, ?_⟩
  simp only [getRegistration]
  rw [lookup_append_of_none st.nextId st.regs _ hfresh]
  refine ⟨_, lookup_singleton_self st.nextId _, ?_, ?_, ?_⟩
  · simp [List.lookup]
  · intro hms hfail
    rcases hm : files.munCertificates with _ | g
    · exact absurd hm hms
    · simp [List.lookup, hfail]
  · intro hrs hfail
    rcases hm : files.chairingResume with _ | g
    · exact absurd hm hrs
    · simp [List.lookup, hfail]

/-- Witness for C2: a concrete submission providing both optional
attachments, whose munCertificates and chairingResume uploads both
fail, is accepted with both optional attachments recorded as null. -/
theorem c2_optional_failure_witness :
    (formSubmitRoute
        (fun f => if f = "idCard" then some ("u1").toList else none)
        ⟨("N").toList, ("n@x.co").toList, ("7").toList, ("C").toList, ("D").toList,
          ("2").toList, ("1").toList, ("0").toList, ("0").toList, ("no").toList,
          some (.jarr ("[u]").toList [("UNSC").toList]),
          some (.jarr ("[p]").toList [("Director").toList])⟩
        ⟨some ⟨("i.pdf").toList, ("application/pdf").toList, 10⟩,
          some ⟨("c.pdf").toList, ("application/pdf").toList, 10⟩,
          some ⟨("r.pdf").toList, ("application/pdf").toList, 10⟩⟩
        ("t0").toList ⟨0, [], []⟩).1.status = 200 ∧
    ∃ reg, getRegistration 0
        (formSubmitRoute
          (fun f => if f = "idCard" then some ("u1").toList else none)
          ⟨("N").toList, ("n@x.co").toList, ("7").toList, ("C").toList, ("D").toList,
            ("2").toList, ("1").toList, ("0").toList, ("0").toList, ("no").toList,
            some (.jarr ("[u]").toList [("UNSC").toList]),
            some (.jarr ("[p]").toList [("Director").toList])⟩
          ⟨some ⟨("i.pdf").toList, ("application/pdf").toList, 10⟩,
            some ⟨("c.pdf").toList, ("application/pdf").toList, 10⟩,
            some ⟨("r.pdf").toList, ("application/pdf").toList, 10⟩⟩
          ("t0").toList ⟨0, [], []⟩).2 = some reg ∧
      reg.fields.lookup "munCertificatesUrl" = some .vnull ∧
      reg.fields.lookup "chairingResumeUrl" = some .vnull ∧
      reg.fields.lookup "idCardUrl" = some (.vstr ("u1").toList) := by
  have h := c2_optional_failure_not_fatal
    (fun f => if f = "idCard" then some ("u1").toList else none)
    ⟨("N").toList, ("n@x.co").toList, ("7").toList, ("C").toList, ("D").toList,
      ("2").toList, ("1").toList, ("0").toList, ("0").toList, ("no").toList,
      some (.jarr ("[u]").toList [("UNSC").toList]),
      some (.jarr ("[p]").toList [("Director").toList])⟩
    ⟨some ⟨("i.pdf").toList, ("application/pdf").toList, 10⟩,
      some ⟨("c.pdf").toList, ("application/pdf").toList, 10⟩,
      some ⟨("r.pdf").toList, ("application/pdf").toList, 10⟩⟩
    ("t0").toList ⟨0, [], []⟩ ("u1").toList
    (by decide) (by decide) (by decide) (by decide) (by decide) (by decide) (by decide)
    [("UNSC").toList] [("Director").toList]
    (by decide) (by decide) (by decide) (by decide) rfl rfl
  obtain ⟨h1, _, _, reg, hget, hidu, hmc, hcr⟩ := h
  exact ⟨h1, reg, hget, hmc (by decide) (by decide), hcr (by decide) (by decide), hidu⟩

/-- Each bulk step pushes exactly one error string when it fails and
none when it succeeds. -/
theorem bulkStep_errors (action : String) (data : Option Doc) (ts : JsValue)
    (id : Nat) (st : DbState) :
    (bulkStep action data ts id st).2.1.length =
      (if (bulkStep action data ts id st).1 then 0 else 1) := by
  unfold bulkStep
  split <;> (try split) <;> (try split) <;> (try split) <;> simp_all

/-- Every identifier of a bulk batch is processed: successes and
failures always partition the batch, with one error string per
failure. -/
theorem bulkLoop_tally (action : String) (data : Option Doc) (ts : JsValue) :
    ∀ (ids : List Nat) (st : DbState),
      (bulkLoop action data ts ids st).1.success +
          (bulkLoop action data ts ids st).1.failed = ids.length ∧
      (bulkLoop action data ts ids st).1.errors.length =
        (bulkLoop action data ts ids st).1.failed := by
  intro ids
  induction ids with
  | nil => intro st; simp [bulkLoop]
  | cons id rest ih =>
    intro st
    have h := ih (bulkStep action data ts id st).2.2
    have he := bulkStep_errors action data ts id st
    simp only [bulkLoop, List.length_cons, List.length_append, he]
    rcases (bulkStep action data ts id st).1 with _ | _ <;>
      simp <;> omega

/-- C5: bulk actions process every identifier independently, one
failure never aborting the rest: the tally always partitions the batch
with one error string per failure; in particular bulk delete over one
existing and one missing identifier answers 200 with success 1,
failure 1 and the missing identifier's not-found message as an error
string, removes the existing registration's attachments from the object
store and deletes its record. -/
theorem c5_bulk_delete_best_effort (st : DbState) (ts : JsValue) (A B : Nat)
    (regA : StoredReg) (fsA : List (String × UploadDesc))
    (hA : getRegistration A st = some regA) (hB : getRegistration B st = none)
    (hfiles : regA.files = some fsA) :
    (∀ (action : String) (data : Option Doc) (ids : List Nat) (st' : DbState),
      (bulkLoop action data ts ids st').1.success +
          (bulkLoop action data ts ids st').1.failed = ids.length ∧
      (bulkLoop action data ts ids st').1.errors.length =
        (bulkLoop action data ts ids st').1.failed) ∧
    (bulkActionRoute "delete" (some [A, B]) none ts st).1.status = 200 ∧
    (bulkActionRoute "delete" (some [A, B]) none ts st).1.ok = true ∧
    (bulkActionRoute "delete" (some [A, B]) none ts st).1.results =
      some ⟨1, 1, [bulkNotFoundMsg B]⟩ ∧
    getRegistration A (bulkActionRoute "delete" (some [A, B]) none ts st).2 = none ∧
    ∀ d ∈ fsA, d.2.key ∉ (bulkActionRoute "delete" (some [A, B]) none ts st).2.store := by
  refine ⟨fun action data ids st' => bulkLoop_tally action data ts ids st', ?_⟩
  have hstep : bulkActionRoute "delete" (some [A, B]) none ts st =
      (⟨200, true, some (bulkLoop "delete" none ts [A, B] st).1⟩,
       (bulkLoop "delete" none ts [A, B] st).2) := rfl
  have hB1 : getRegistration B (deleteRegistration A (deleteRegistrationFilesDb fsA st)) = none := by
    simp only [getRegistration, deleteRegistration, deleteRegistrationFilesDb] at hB ⊢
    exact lookup_filter_none B st.regs _ hB
  have hsA : bulkStep "delete" none ts A st =
      (true, [], deleteRegistration A (deleteRegistrationFilesDb fsA st)) := by
    simp only [bulkStep, hA, hfiles]
  have hsB : bulkStep "delete" none ts B (deleteRegistration A (deleteRegistrationFilesDb fsA st)) =
      (false, [bulkNotFoundMsg B], deleteRegistration A (deleteRegistrationFilesDb fsA st)) := by
    simp only [bulkStep, hB1]
  have hloop : bulkLoop "delete" none ts [A, B] st =
      (⟨1, 1, [bulkNotFoundMsg B]⟩,
       deleteRegistration A (deleteRegistrationFilesDb fsA st)) := by
    simp only [bulkLoop, hsA, hsB]
    rfl
  rw [hstep, hloop]
  refine ⟨rfl, rfl, rfl, ?_, ?_⟩
  · simp only [getRegistration, deleteRegistration]
    exact lookup_filter_self A _
  · intro d hd hmem
    simp only [deleteRegistration, deleteRegistrationFilesDb] at hmem
    have h2 := (List.mem_filter.mp hmem).2
    simp only [decide_eq_true_eq] at h2
    exact h2 (List.elem_eq_true_of_mem (List.mem_map.mpr ⟨d, hd, rfl⟩))

/-- Witness for C5: deleting registrations 1 (present, one stored
attachment) and 2 (absent) yields success 1, failure 1, the not-found
error string for 2, and removes both the record and its attachment. -/
theorem c5_bulk_delete_witness :
    (bulkActionRoute "delete" (some [1, 2]) none .vnull
        ⟨3, [(1, ⟨[], some [("idCard", ⟨("k1").toList, ("i.pdf").toList, 9,
          ("application/pdf").toList⟩)]⟩)], [("k1").toList]⟩).1.results =
      some ⟨1, 1, [bulkNotFoundMsg 2]⟩ ∧
    getRegistration 1 (bulkActionRoute "delete" (some [1, 2]) none .vnull
        ⟨3, [(1, ⟨[], some [("idCard", ⟨("k1").toList, ("i.pdf").toList, 9,
          ("application/pdf").toList⟩)]⟩)], [("k1").toList]⟩).2 = none ∧
    ("k1").toList ∉ (bulkActionRoute "delete" (some [1, 2]) none .vnull
        ⟨3, [(1, ⟨[], some [("idCard", ⟨("k1").toList, ("i.pdf").toList, 9,
          ("application/pdf").toList⟩)]⟩)], [("k1").toList]⟩).2.store := by
  have h := c5_bulk_delete_best_effort
    ⟨3, [(1, ⟨[], some [("idCard", ⟨("k1").toList, ("i.pdf").toList, 9,
      ("application/pdf").toList⟩)]⟩)], [("k1").toList]⟩ .vnull 1 2
    ⟨[], some [("idCard", ⟨("k1").toList, ("i.pdf").toList, 9,
      ("application/pdf").toList⟩)]⟩
    [("idCard", ⟨("k1").toList, ("i.pdf").toList, 9, ("application/pdf").toList⟩)]
    (by decide) (by decide) rfl
  exact ⟨h.2.2.2.1, h.2.2.2.2.1, h.2.2.2.2.2
    ("idCard", ⟨("k1").toList, ("i.pdf").toList, 9, ("application/pdf").toList⟩)
    (by decide)⟩

end MunEB
